import Mathlib

/-!
Verification development for the "Machine of Worlds" incremental game
(plain HTML/JS, sources under src/js/).  The JavaScript classes are
shallowly embedded: JS numbers are modelled as rationals (ℚ), `Math.floor`
as `Int.floor`, JS objects holding resources/upgrades as association lists
keyed by strings (preserving JS insertion-order semantics), and the
`Math.random()` draws of random code paths are passed in as explicit
parameters.  Each definition carries a comment naming the source function
it embeds.
-/

namespace MachineOfWorlds

/-- Lookup in a JS object modelled as an association list (first matching
key wins, like JS property lookup on our flat objects). -/
def alookup {α : Type} : List (String × α) → String → Option α
  | [], _ => none
  | (k', v) :: rest, k => if k' = k then some v else alookup rest k

/-- Assignment `obj[k] = v` on a JS object modelled as an association list:
an existing key is updated in place, a new key is appended at the end
(JS insertion-order semantics). -/
def aset {α : Type} : List (String × α) → String → α → List (String × α)
  | [], k, v => [(k, v)]
  | (k', v') :: rest, k, v =>
      if k' = k then (k, v) :: rest else (k', v') :: aset rest k v

/-- `obj[k] || 0`-style read: absent key behaves as 0. -/
def agetD (m : List (String × ℚ)) (k : String) : ℚ := (alookup m k).getD 0

/-- JS `obj.hasOwnProperty(k)` on our flat objects. -/
def ahas {α : Type} (m : List (String × α)) (k : String) : Bool :=
  (alookup m k).isSome

/-- JS `Math.floor` on a rational. -/
def jfloor (q : ℚ) : ℚ := (⌊q⌋ : ℤ)

/-- JS `a < b` where `a` may be `undefined` (absent object property):
`undefined < b` is `false` because `undefined` coerces to NaN. -/
def jsLtU (a : Option ℚ) (b : ℚ) : Bool :=
  match a with
  | none => false
  | some v => decide (v < b)

/-- JS `a >= b` where `a` may be `undefined`: `undefined >= b` is `false`. -/
def jsGeU (a : Option ℚ) (b : ℚ) : Bool :=
  match a with
  | none => false
  | some v => decide (b ≤ v)

/-- An upgrade entry of `state.upgrades` (GameState.js constructor).
`level`/`maxLevel` are integers in every state the game constructs, so we
type them as ℤ; `Math.pow(1.5, level)` then matches `(3/2) ^ level` (zpow).
The `requires…` gate fields of cross-resource upgrades are optional. -/
structure Upgrade where
  level : ℤ
  maxLevel : ℤ
  baseCost : ℚ
  unlocked : Option Bool
  requiresHeat : Option ℚ
  requiresPressure : Option ℚ
  requiresFuel : Option ℚ
  requiresEnergy : Option ℚ
  requiresStability : Option ℚ
  deriving DecidableEq, Repr

/-- A world of WorldSystem.worldDefinitions (src/js/WorldSystem.js).  The
display-only `description` and the `resourceGeneration` table (not read by
any operation verified here) are omitted; `specialEffectSpecial` embeds
`world.specialEffects.effects.special`, which no catalog world sets. -/
structure World where
  wid : Nat
  name : String
  wtype : String
  unlockRequirements : List (String × ℚ)
  gravity : ℚ
  timeSpeed : ℚ
  temperature : ℚ
  atmosphere : ℚ
  specialEffectSpecial : Option String
  deriving DecidableEq, Repr

/-- An entry of `state.activeEvents` (EventSystem.selectEventChoice pushes
`name`/`effect`/`duration`/`originalDuration`; `value` is set later by
`addTemporaryEffect`). -/
structure ActiveEvent where
  name : String
  effect : String
  duration : ℤ
  originalDuration : ℤ
  value : Option ℚ
  deriving DecidableEq, Repr

/-- A choice of an event definition (EventSystem.js); `cost`/`value` exist
only on some choices. -/
structure EventChoice where
  text : String
  effect : String
  cost : Option (List (String × ℚ))
  value : Option ℚ
  deriving DecidableEq, Repr

/-- An event definition of EventSystem.eventDefinitions.  The display-only
`description`/`effect` strings are omitted (never read by the logic). -/
structure EventDef where
  name : String
  rarity : String
  duration : ℤ
  choices : List EventChoice
  deriving DecidableEq, Repr

/-- `state.permanentBonuses`. -/
structure PermanentBonuses where
  resourceEfficiency : ℚ
  upgradeCostReduction : ℚ
  deriving DecidableEq, Repr

/-- An entry of `state.worldHistory`, as fabricated by
GameState.validateAndFixState's old-save migration. -/
structure WorldHistEntry where
  hid : Nat
  htype : String
  tier : Nat
  gravity : ℚ
  timeSpeed : ℚ
  temperature : ℚ
  atmosphere : ℚ
  weather : String
  weatherDuration : ℚ
  createdAt : ℚ
  deriving DecidableEq, Repr

/-- An entry of `state.eventHistory` (EventSystem.selectEventChoice). -/
structure EventHistEntry where
  name : String
  choice : String
  timestamp : ℚ
  deriving DecidableEq, Repr

/-- `state.achievements` minus the static `definitions` table (embedded
below as the constant `achievementDefs`) and the never-read `progress`. -/
structure AchState where
  unlocked : List Nat
  deriving DecidableEq, Repr

/-- The game state (GameState.js constructor, second/current revision of
the file, lines 255-870).  Settings, machineParts and the display-only
fields are omitted; the trailing telemetry fields are created by
AchievementSystem.initializeAchievementTracking and read with `|| 0`-style
defaults (absent behaves as 0 / empty).  `maintenance` keeps only the
`duration` member that the code reads. -/
structure GState where
  worldsCreated : Nat
  machineComplexity : ℚ
  worldHistory : List WorldHistEntry
  resources : List (String × ℚ)
  upgrades : List (String × Upgrade)
  currentWorld : Option World
  unlockedWorlds : List Nat
  worldProgress : Nat
  activeEvents : List ActiveEvent
  eventHistory : List EventHistEntry
  permanentBonuses : PermanentBonuses
  achievements : AchState
  playtime : ℚ
  totalClicks : ℚ
  totalResets : ℚ
  synergyActivations : ℚ
  gameStartTime : ℚ
  conversions : List (String × ℚ)
  recentActions : List (String × List ℚ)
  streaks : List (String × ℚ)
  discoveries : List (String × List String)
  manualGeneration : List (String × ℚ)
  maintenance : List (String × ℚ)
  capHits : ℚ
  featureUsage : List (String × ℚ)
  pageVisits : List (String × ℚ)
  tierWorldCounts : List (String × ℚ)
  secretCodes : List String
  deriving DecidableEq, Repr

/-- The default `state.upgrades` of the GameState constructor. -/
def defaultUpgrades : List (String × Upgrade) :=
  [("heatGenerator",
    { level := 0, maxLevel := 10, baseCost := 10, unlocked := none,
      requiresHeat := none, requiresPressure := none, requiresFuel := none,
      requiresEnergy := none, requiresStability := none }),
   ("fuelEfficiency",
    { level := 0, maxLevel := 10, baseCost := 15, unlocked := none,
      requiresHeat := none, requiresPressure := none, requiresFuel := none,
      requiresEnergy := none, requiresStability := none }),
   ("thermalAccelerator",
    { level := 0, maxLevel := 5, baseCost := 25, unlocked := some false,
      requiresHeat := some 3, requiresPressure := some 30, requiresFuel := none,
      requiresEnergy := none, requiresStability := none }),
   ("fuelSynchronizer",
    { level := 0, maxLevel := 5, baseCost := 30, unlocked := some false,
      requiresHeat := none, requiresPressure := none, requiresFuel := some 5,
      requiresEnergy := some 20, requiresStability := none }),
   ("pressureValve",
    { level := 0, maxLevel := 5, baseCost := 35, unlocked := some false,
      requiresHeat := none, requiresPressure := some 50, requiresFuel := none,
      requiresEnergy := none, requiresStability := some 15 }),
   ("energyMatrix",
    { level := 0, maxLevel := 5, baseCost := 40, unlocked := some false,
      requiresHeat := some 7, requiresPressure := none, requiresFuel := some 8,
      requiresEnergy := none, requiresStability := none })]

/-- The default `state.resources` of the GameState constructor (the current
revision initializes all twelve resource kinds to 0). -/
def defaultResourcesFull : List (String × ℚ) :=
  [("heat", 0), ("fuel", 0), ("pressure", 0), ("energy", 0), ("stability", 0),
   ("water", 0), ("oxygen", 0), ("stone", 0), ("magma", 0), ("ice", 0),
   ("crystal", 0), ("voidEnergy", 0)]

/-- The five-resource default used by GameState.validateAndFixState
(`const defaultResources = ...`). -/
def defaultResourcesFive : List (String × ℚ) :=
  [("heat", 0), ("fuel", 0), ("pressure", 0), ("energy", 0), ("stability", 0)]

/-- The initial game state (GameState constructor; the constructor's
validateAndFixState call is the identity on it since every default field is
already present and `worldsCreated = 0`). -/
def initState : GState where
  worldsCreated := 0
  machineComplexity := 0
  worldHistory := []
  resources := defaultResourcesFull
  upgrades := defaultUpgrades
  currentWorld := none
  unlockedWorlds := [0]
  worldProgress := 0
  activeEvents := []
  eventHistory := []
  permanentBonuses := { resourceEfficiency := 1, upgradeCostReduction := 1 }
  achievements := { unlocked := [] }
  playtime := 0
  totalClicks := 0
  totalResets := 0
  synergyActivations := 0
  gameStartTime := 0
  conversions := []
  recentActions := []
  streaks := []
  discoveries := []
  manualGeneration := []
  maintenance := []
  capHits := 0
  featureUsage := []
  pageVisits := []
  tierWorldCounts := []
  secretCodes := []

/-! ## GameState.addResources / GameState.enforceResourceCaps -/

/-- Whether the current world carries the `noResourceLimits` special effect
(the `world && world.specialEffects && ... === 'noResourceLimits'` test of
GameState.enforceResourceCaps). -/
def noResourceLimits (w : Option World) : Bool :=
  match w with
  | none => false
  | some world => world.specialEffectSpecial = some "noResourceLimits"

/-- The `caps` table of GameState.enforceResourceCaps: `none` stands for
`Infinity` (heat and fuel are uncapped); the pressure/energy/stability caps
double when the current world has the `noResourceLimits` special effect. -/
def capsFor (noLimits : Bool) : List (String × Option ℚ) :=
  [("heat", none), ("fuel", none),
   ("pressure", some (if noLimits then 200 else 100)),
   ("energy", some (if noLimits then 400 else 200)),
   ("stability", some (if noLimits then 100 else 50))]

/-- One iteration of the cap-enforcement loop for key `k` with cap `cap`
(`cap = none` embeds `Infinity`, for which only the `< 0` clamp runs).  An
absent key is untouched: in JS both `undefined > cap` and `undefined < 0`
are false. -/
def clampKey (res : List (String × ℚ)) (k : String) (cap : Option ℚ) :
    List (String × ℚ) :=
  match alookup res k with
  | none => res
  | some v =>
      let res' := match cap with
        | some c => if c < v then aset res k c else res
        | none => res
      match alookup res' k with
      | none => res'
      | some v' => if v' < 0 then aset res' k 0 else res'

/-- GameState.enforceResourceCaps: clamp every capped resource to its cap
and every listed resource to ≥ 0.  Only the five resources named in the
`caps` table are ever touched. -/
def enforceResourceCaps (noLimits : Bool) (res : List (String × ℚ)) :
    List (String × ℚ) :=
  (capsFor noLimits).foldl (fun r kc => clampKey r kc.1 kc.2) res

/-- The `for ... of Object.entries(resourceDeltas)` loop of
GameState.addResources: an existing resource is incremented, an unknown
resource key is created and initialized to its delta. -/
def applyDeltas (res : List (String × ℚ)) :
    List (String × ℚ) → List (String × ℚ)
  | [] => res
  | (k, amount) :: rest =>
      applyDeltas
        (match alookup res k with
         | some v => aset res k (v + amount)
         | none => aset res k amount)
        rest

/-- GameState.addResources (without the UI-notification side channel):
apply the deltas, then enforce the caps. -/
def addResources (s : GState) (deltas : List (String × ℚ)) : GState :=
  { s with
      resources :=
        enforceResourceCaps (noResourceLimits s.currentWorld)
          (applyDeltas s.resources deltas) }

/-! ## UpgradeSystem.getUpgradeCost / UpgradeSystem.upgradeResource -/

/-- UpgradeSystem.getUpgradeCost: `floor(baseCost * 1.5^level)`, multiplied
by the permanent cost-reduction bonus, halved once per active
`cheapUpgrade`/`cheapUpgrades` event, floored again.  A missing upgrade
returns 0 (the guard clauses). -/
def getUpgradeCost (s : GState) (upgradeType : String) : ℚ :=
  match alookup s.upgrades upgradeType with
  | none => 0
  | some upgrade =>
      let cost := jfloor (upgrade.baseCost * (3 / 2 : ℚ) ^ upgrade.level)
      let cost := cost * s.permanentBonuses.upgradeCostReduction
      let cost := s.activeEvents.foldl
        (fun c event =>
          if event.effect = "cheapUpgrade" ∨ event.effect = "cheapUpgrades"
          then c * (1 / 2) else c)
        cost
      jfloor cost

/-- UpgradeSystem.upgradeResource: purchase succeeds iff the paying
resource covers the cost and the upgrade is below `maxLevel`; on success
the cost is deducted and the level incremented; any failure (including an
unknown upgrade, or a paying-resource key that is absent, for which the JS
comparison `undefined >= cost` is false) leaves the state unchanged. -/
def upgradeResource (s : GState) (upgradeType resourceType : String) :
    Bool × GState :=
  match alookup s.upgrades upgradeType with
  | none => (false, s)
  | some upgrade =>
      let cost := getUpgradeCost s upgradeType
      match alookup s.resources resourceType with
      | none => (false, s)
      | some have_ =>
          if cost ≤ have_ ∧ upgrade.level < upgrade.maxLevel then
            (true,
             { s with
                resources := aset s.resources resourceType (have_ - cost),
                upgrades := aset s.upgrades upgradeType
                  { upgrade with level := upgrade.level + 1 } })
          else (false, s)

/-! ## WorldSystem (structured world progression, src/js/WorldSystem.js) -/

/-- The static world catalog WorldSystem.worldDefinitions (ids 0-7).  Only
the fields read by the verified operations are kept; no catalog world
defines `specialEffects`. -/
def worldDefinitions : List World :=
  [{ wid := 0, name := "Desert Planet", wtype := "Desert",
     unlockRequirements := [],
     gravity := 1, timeSpeed := 1, temperature := 45, atmosphere := 20,
     specialEffectSpecial := none },
   { wid := 1, name := "Ocean Planet", wtype := "Ocean",
     unlockRequirements := [("heat", 50), ("fuel", 25)],
     gravity := 9/10, timeSpeed := 11/10, temperature := 15, atmosphere := 80,
     specialEffectSpecial := none },
   { wid := 2, name := "Forest Planet", wtype := "Forest",
     unlockRequirements := [("heat", 25), ("fuel", 25), ("water", 30)],
     gravity := 11/10, timeSpeed := 9/10, temperature := 22, atmosphere := 95,
     specialEffectSpecial := none },
   { wid := 3, name := "Mountain Planet", wtype := "Mountain",
     unlockRequirements :=
       [("heat", 25), ("fuel", 25), ("water", 25), ("oxygen", 20)],
     gravity := 13/10, timeSpeed := 8/10, temperature := 5, atmosphere := 45,
     specialEffectSpecial := none },
   { wid := 4, name := "Volcanic Planet", wtype := "Volcanic",
     unlockRequirements :=
       [("heat", 50), ("fuel", 25), ("water", 25), ("oxygen", 20),
        ("stone", 30)],
     gravity := 12/10, timeSpeed := 13/10, temperature := 85, atmosphere := 25,
     specialEffectSpecial := none },
   { wid := 5, name := "Ice Planet", wtype := "Ice",
     unlockRequirements :=
       [("heat", 25), ("fuel", 25), ("water", 40), ("oxygen", 20),
        ("stone", 25), ("magma", 20)],
     gravity := 8/10, timeSpeed := 7/10, temperature := -35, atmosphere := 55,
     specialEffectSpecial := none },
   { wid := 6, name := "Crystal Planet", wtype := "Crystal",
     unlockRequirements :=
       [("heat", 30), ("fuel", 30), ("water", 30), ("oxygen", 25),
        ("stone", 30), ("magma", 20), ("ice", 25)],
     gravity := 14/10, timeSpeed := 11/10, temperature := 18, atmosphere := 40,
     specialEffectSpecial := none },
   { wid := 7, name := "Void Planet", wtype := "Void",
     unlockRequirements :=
       [("heat", 40), ("fuel", 40), ("water", 35), ("oxygen", 30),
        ("stone", 35), ("magma", 25), ("ice", 30), ("crystal", 20)],
     gravity := 5/10, timeSpeed := 2, temperature := 0, atmosphere := 0,
     specialEffectSpecial := none }]

/-- WorldSystem.getWorldById: `this.worldDefinitions[worldId] || null`
(array index). -/
def getWorldById (worldId : Nat) : Option World := worldDefinitions[worldId]?

/-- WorldSystem.canUnlockWorld: every listed requirement must be met by the
current resources.  The JS loop fails only when
`state.resources[resource] < required` is true, so an *absent* resource key
(`undefined < required` is false) does not fail the check. -/
def canUnlockWorld (s : GState) (worldId : Nat) : Bool :=
  match getWorldById worldId with
  | none => false
  | some world =>
      world.unlockRequirements.all
        (fun rq => ¬ jsLtU (alookup s.resources rq.1) rq.2)

/-- The unlock-cost deduction loop of WorldSystem.selectWorld:
`state.resources[resource] -= amount` for every requirement entry.  (All
requirement keys are initialized by the GameState constructor, so the
absent-key case, which would produce NaN in JS, is unreachable; it is
modelled as deducting from 0.) -/
def deductUnlockCost (res : List (String × ℚ)) :
    List (String × ℚ) → List (String × ℚ)
  | [] => res
  | (k, amount) :: rest =>
      deductUnlockCost (aset res k ((alookup res k).getD 0 - amount)) rest

/-- WorldSystem.selectWorld: fails on an unknown or not-yet-unlocked world;
on the first selection past `worldProgress` it deducts the unlock cost
(with no clamping), advances `worldProgress`, and increments
`worldsCreated`; it always ends by installing the world as
`currentWorld`. -/
def selectWorld (s : GState) (worldId : Nat) : Bool × GState :=
  match getWorldById worldId with
  | none => (false, s)
  | some world =>
      if worldId ∈ s.unlockedWorlds then
        let s' :=
          if s.worldProgress < worldId then
            { s with
                resources := deductUnlockCost s.resources
                  world.unlockRequirements,
                worldProgress := worldId,
                worldsCreated := s.worldsCreated + 1 }
          else s
        (true, { s' with currentWorld := some world })
      else (false, s)

/-! ## EventSystem (src/js/EventSystem.js) -/

/-- The static event catalog EventSystem.eventDefinitions.  Display strings
(`description`, `effect` text) are omitted; the logic reads only `name`,
`rarity`, `duration` and the choices' `effect`/`cost`/`value`. -/
def eventDefinitions : List EventDef :=
  [{ name := "Resource Surge", rarity := "common", duration := 3,
     choices :=
       [{ text := "Boost Heat", effect := "heatBoost", cost := none, value := none },
        { text := "Boost Fuel", effect := "fuelBoost", cost := none, value := none },
        { text := "Boost Pressure", effect := "pressureBoost", cost := none, value := none }] },
   { name := "Machine Tune-Up", rarity := "common", duration := 2,
     choices :=
       [{ text := "Accept Bonus", effect := "allResourceBoost", cost := none, value := none },
        { text := "Decline", effect := "none", cost := none, value := none }] },
   { name := "Solar Flare", rarity := "uncommon", duration := 4,
     choices :=
       [{ text := "Harness Energy", effect := "solarHarvest", cost := none, value := none },
        { text := "Shield Systems", effect := "stabilityProtect", cost := none, value := none }] },
   { name := "Quantum Fluctuation", rarity := "uncommon", duration := 2,
     choices :=
       [{ text := "Embrace Chaos", effect := "worldReroll", cost := none, value := none },
        { text := "Stay Grounded", effect := "stabilityGain", cost := none, value := none }] },
   { name := "Dimensional Rift", rarity := "rare", duration := 1,
     choices :=
       [{ text := "Enter Rift", effect := "tierUnlock", cost := none, value := none },
        { text := "Seal Rift", effect := "energyGain", cost := none, value := none }] },
   { name := "Ancient Technology", rarity := "rare", duration := 1,
     choices :=
       [{ text := "Study Technology", effect := "cheapUpgrade", cost := none, value := none },
        { text := "Harvest Materials", effect := "resourceChoice", cost := none, value := none }] },
   { name := "Lucky Calibration", rarity := "ultraRare", duration := 10,
     choices :=
       [{ text := "Accept Calibration", effect := "cheapUpgrades", cost := none, value := none },
        { text := "Decline", effect := "none", cost := none, value := none }] },
   { name := "Crystal Resonance", rarity := "ultraRare", duration := -1,
     choices :=
       [{ text := "Embrace Resonance", effect := "permanentEfficiency", cost := none, value := none },
        { text := "Ignore", effect := "none", cost := none, value := none }] },
   { name := "System Glitch", rarity := "negative", duration := 0,
     choices :=
       [{ text := "Fix with Energy", effect := "energyCost",
          cost := some [("energy", 30)], value := none },
        { text := "Accept Loss", effect := "resourceLoss", cost := none, value := some 20 }] },
   { name := "Pressure Leak", rarity := "negative", duration := 0,
     choices :=
       [{ text := "Emergency Repair", effect := "heatCost",
          cost := some [("heat", 40)], value := none },
        { text := "Accept Leak", effect := "pressureLoss", cost := none, value := some 50 }] }]

/-- EventSystem.addTemporaryEffect: set `event.value` on every active event
whose `effect` matches.  (The class reads the game state through its
injected `gameState` handle.) -/
def addTemporaryEffect (s : GState) (effectType : String) (value : ℚ) :
    GState :=
  { s with
      activeEvents := s.activeEvents.map
        (fun event =>
          if event.effect = effectType then { event with value := some value }
          else event) }

/-- EventSystem.loseHighestResource: find the largest of heat, fuel,
pressure, energy (heat is the initial candidate and ties keep the earlier
entry), subtract `percentage`% of it (floored) and clamp at 0. -/
def loseHighestResource (s : GState) (percentage : ℚ) : GState :=
  let start : String × ℚ := ("heat", agetD s.resources "heat")
  let highest := ["fuel", "pressure", "energy"].foldl
    (fun high ty =>
      if high.2 < agetD s.resources ty then (ty, agetD s.resources ty)
      else high)
    start
  let lossAmount := jfloor (highest.2 * (percentage / 100))
  let res := aset s.resources highest.1 (highest.2 - lossAmount)
  { s with resources := (aset res highest.1
      (max 0 ((alookup res highest.1).getD 0))) }

/-- The `pressureLoss` branch of EventSystem.applyEventEffect: lose
`value`% of current pressure (floored), clamped at 0. -/
def applyPressureLoss (s : GState) (value : ℚ) : GState :=
  let p := agetD s.resources "pressure"
  let lossAmount := jfloor (p * (value / 100))
  let res := aset s.resources "pressure" (p - lossAmount)
  { s with resources := (aset res "pressure"
      (max 0 ((alookup res "pressure").getD 0))) }

/-- EventSystem.applyEventEffect.  Direct resource mutations
(`stabilityGain`, `energyGain`, the cost deductions and the loss branches)
do not run cap enforcement.  All resource keys touched here are initialized
by the GameState constructor, so `agetD`'s absent-key default 0 is never
exercised. -/
def applyEventEffect (s : GState) (effectType : String)
    (choice : Option EventChoice) : GState :=
  if effectType = "heatBoost" then addTemporaryEffect s "heat" (5/4)
  else if effectType = "fuelBoost" then addTemporaryEffect s "fuel" (5/4)
  else if effectType = "pressureBoost" then addTemporaryEffect s "pressure" (5/4)
  else if effectType = "allResourceBoost" then addTemporaryEffect s "all" (23/20)
  else if effectType = "solarHarvest" then
    addTemporaryEffect (addTemporaryEffect s "heat" (3/2)) "stability" (-1)
  else if effectType = "stabilityProtect" then addTemporaryEffect s "stability" 2
  else if effectType = "worldReroll" then s
  else if effectType = "stabilityGain" then
    { s with resources := (aset s.resources "stability"
        (agetD s.resources "stability" + 10)) }
  else if effectType = "tierUnlock" then s
  else if effectType = "energyGain" then
    { s with resources := (aset s.resources "energy"
        (agetD s.resources "energy" + 25)) }
  else if effectType = "cheapUpgrade" then addTemporaryEffect s "upgradeCost" (3/5)
  else if effectType = "resourceChoice" then s
  else if effectType = "cheapUpgrades" then addTemporaryEffect s "upgradeCost" (1/2)
  else if effectType = "permanentEfficiency" then
    { s with permanentBonuses :=
        { s.permanentBonuses with resourceEfficiency :=
            s.permanentBonuses.resourceEfficiency + 1/20 } }
  else if effectType = "energyCost" then
    match choice with
    | some ch =>
        match ch.cost with
        | some cost =>
            let canAfford := cost.all
              (fun rc => rc.2 ≤ agetD s.resources rc.1)
            if canAfford then
              { s with resources := (cost.foldl
                  (fun res rc => aset res rc.1 (agetD res rc.1 - rc.2))
                  s.resources) }
            else loseHighestResource s 20
        | none => s
    | none => s
  else if effectType = "heatCost" then
    match choice with
    | some ch =>
        match ch.cost with
        | some cost =>
            if (alookup cost "heat").getD 0 ≤ agetD s.resources "heat" then
              { s with resources := (aset s.resources "heat"
                  (agetD s.resources "heat" - (alookup cost "heat").getD 0)) }
            else applyPressureLoss s 50
        | none => applyPressureLoss s 50
    | none => applyPressureLoss s 50
  else if effectType = "resourceLoss" then
    match choice with
    | some ch =>
        match ch.value with
        | some v => loseHighestResource s v
        | none => s
    | none => s
  else if effectType = "pressureLoss" then
    match choice with
    | some ch =>
        match ch.value with
        | some v => applyPressureLoss s v
        | none => s
    | none => s
  else if effectType = "overclock" then
    addTemporaryEffect (addTemporaryEffect s "all" 2) "upgradeCost" (3/2)
  else s

/-- EventSystem.updateActiveEvents: the JS
`filter(event => { event.duration--; return event.duration > 0 })`
decrements every active event's duration and keeps exactly those whose
decremented duration is still positive. -/
def updateActiveEvents (s : GState) : GState :=
  { s with
      activeEvents := s.activeEvents.filterMap
        (fun event =>
          let event' := { event with duration := event.duration - 1 }
          if 0 < event'.duration then some event' else none) }

/-- EventSystem.selectEventChoice (with the choice timestamp as an explicit
clock argument): apply the chosen effect, append to the event history, and
append a timed active event only when `event.duration > 0`. -/
def selectEventChoice (clock : ℚ) (s : GState) (event : EventDef)
    (choice : EventChoice) : GState :=
  let s := applyEventEffect s choice.effect (some choice)
  let s := { s with
      eventHistory := s.eventHistory ++
        [{ name := event.name, choice := choice.text, timestamp := clock }] }
  if 0 < event.duration then
    { s with
        activeEvents := s.activeEvents ++
          [{ name := event.name, effect := choice.effect,
             duration := event.duration,
             originalDuration := event.duration, value := none }] }
  else s

/-! ## ResourceSystem pieces (src/js/ResourceSystem.js) -/

/-- The weather `switch` of ResourceSystem.generateResources (the revision
with the Chaotic branch, lines 446-469): given the two `Math.random()`
draws `r1`, `r2` of the Chaotic case, return the weather-adjusted
`(heatGain, fuelGain)`.  In the Chaotic case one variance
(`0.25 + r1 * 0.5`) and one direction (`r2 < 0.5 ? -1 : 1`) are drawn once
and the same factor multiplies both gains. -/
def applyWeatherStage (weather : String) (r1 r2 : ℚ)
    (heatGain fuelGain : ℚ) : ℚ × ℚ :=
  if weather = "Stormy" then (heatGain * (5/4), fuelGain * (3/2))
  else if weather = "Calm" then (heatGain * (23/20), fuelGain * (23/20))
  else if weather = "Chaotic" then
    let variance := 1/4 + r1 * (1/2)
    let direction : ℚ := if r2 < 1/2 then -1 else 1
    (heatGain * (1 + variance * direction),
     fuelGain * (1 + variance * direction))
  else if weather = "Serene" then (heatGain, fuelGain * (13/10))
  else if weather = "Turbulent" then (heatGain * (8/10), fuelGain)
  else (heatGain, fuelGain)

/-- ResourceSystem.applyResourceDecay: pressure decays by 5% (floored); if
energy is positive it drops by `floor(timeSpeed * 2)`, clamped at 0. -/
def applyResourceDecay (s : GState) (world : Option World) : GState :=
  let s := { s with resources := (aset s.resources "pressure"
      (jfloor (agetD s.resources "pressure" * (95/100)))) }
  match world with
  | none => s
  | some w =>
      if 0 < agetD s.resources "energy" then
        { s with resources := (aset s.resources "energy"
            (max 0 (agetD s.resources "energy" - jfloor (w.timeSpeed * 2)))) }
      else s

/-! ## Game.generateEnergy (src/js/Game.js, lines 358-381) -/

/-- Game.generateEnergy: when heat ≥ 10 and fuel ≥ 15, spend them and gain
40 energy, clamped by `Math.min(200, energy)` (a direct mutation that never
calls enforceResourceCaps). -/
def generateEnergyClick (s : GState) : GState :=
  let heatCost : ℚ := 10
  let fuelCost : ℚ := 15
  if heatCost ≤ agetD s.resources "heat" ∧
      fuelCost ≤ agetD s.resources "fuel" then
    let res := aset s.resources "heat" (agetD s.resources "heat" - heatCost)
    let res := aset res "fuel" (agetD res "fuel" - fuelCost)
    let res := aset res "energy" (agetD res "energy" + 40)
    { s with resources := aset res "energy" (min 200 (agetD res "energy")) }
  else s

/-! ## AchievementSystem (src/js/AchievementSystem.js) -/

/-- The tagged requirement shapes appearing in
`state.achievements.definitions` (GameState constructor).  `other ty`
stands for a requirement whose runtime `type` string has no case in the
`checkRequirement` switch and therefore always evaluates false: the
definitions use it for `stat` (id 32), `variety` (id 33), `collection`
(id 35), and for id 28, whose object literal writes the `type` key twice
(`type: "conversion", type: "pressure_to_heat"`), so its runtime type is
the effect string `pressure_to_heat`. -/
inductive Requirement where
  | resource (rname : String) (amount : ℚ)
  | worlds (amount : ℚ)
  | upgrade (count : Option ℚ) (maxed : Option (List String))
  | achievements (amount : ℚ)
  | playtime (amount : ℚ)
  | clicks (amount : ℚ)
  | resets (amount : ℚ)
  | synergy (all : Bool) (syn : Option String) (count : Option ℚ)
  | balance (rs : List String) (amount : ℚ)
  | total (amount : ℚ)
  | completion (achievements : Option ℚ) (percentage : Option ℚ)
  | speed (achievement : Option Nat) (category : Option String)
      (count : Option ℚ) (time : ℚ)
  | conversion (src : String) (dst : String) (amount : ℚ)
  | ratio (rs : List String) (ratioVals : List ℚ)
  | maintain (rs : List String) (ratioVals : List ℚ) (duration : ℚ)
  | streak (category : String) (count : ℚ)
  | discovery (category : String) (count : ℚ)
  | challenge (method : String) (rname : String) (amount : ℚ)
  | simultaneous (category : String) (count : ℚ)
  | caps (category : String) (count : ℚ)
  | usage (category : String) (duration : ℚ)
  | navigation (category : String) (count : ℚ)
  | constraint (category : String) (maxTypes : ℚ) (goalType : String)
      (goalAmount : ℚ)
  | tier (tierNum : Nat) (needWorlds : ℚ)
  | tierVariety (tiers : List Nat) (minEach : ℚ)
  | secret (code : String)
  | other (tyName : String)
  deriving DecidableEq, Repr

/-- An achievement definition (name/description/reward text plus the
requirement and the hidden flag; the description is omitted as
display-only). -/
structure AchDef where
  name : String
  reward : String
  requirement : Requirement
  hidden : Bool
  deriving DecidableEq, Repr

/-- Shorthand for the 65 non-hidden definitions. -/
def mkAch (name reward : String) (requirement : Requirement) : AchDef :=
  { name := name, reward := reward, requirement := requirement,
    hidden := false }

/-- `state.achievements.definitions` (GameState constructor, current
revision, ids 1-70), in the ascending-integer-key order that JS
`Object.entries` yields. -/
def achievementDefs : List (Nat × AchDef) :=
  [(1, mkAch "First Steps" "+5% Heat generation" (.resource "heat" 1)),
   (2, mkAch "Fuel Finder" "+5% Fuel generation" (.resource "fuel" 1)),
   (3, mkAch "First Upgrade" "+2% upgrade efficiency" (.upgrade (some 1) none)),
   (4, mkAch "Heat Wave" "+10% Heat generation" (.resource "heat" 100)),
   (5, mkAch "Fuel Tank" "+8% Fuel generation" (.resource "fuel" 100)),
   (6, mkAch "World Builder" "Unlock world bonuses" (.worlds 1)),
   (7, mkAch "Pressure Rising" "+15% Pressure generation" (.resource "pressure" 50)),
   (8, mkAch "Energy Seeker" "+12% Energy generation" (.resource "energy" 25)),
   (9, mkAch "Stability Master" "+10% Stability generation" (.resource "stability" 20)),
   (10, mkAch "Heat Master" "+20% Heat generation" (.resource "heat" 1000)),
   (11, mkAch "Fuel Depot" "+15% Fuel generation" (.resource "fuel" 500)),
   (12, mkAch "Upgrader" "+5% upgrade efficiency" (.upgrade (some 5) none)),
   (13, mkAch "World Collector" "Unlock Tier 2 worlds" (.worlds 5)),
   (14, mkAch "Pressure Cooker" "+25% Pressure conversion" (.resource "pressure" 100)),
   (15, mkAch "Energy Core" "+20% Energy generation" (.resource "energy" 100)),
   (16, mkAch "Synergy User" "+10% synergy bonus"
     (.synergy false (some "heat_pressure") (some 1))),
   (17, mkAch "Dimension Hopper" "Unlock World Generator" (.worlds 25)),
   (18, mkAch "Mega Heat" "+30% Heat generation" (.resource "heat" 10000)),
   (19, mkAch "Fuel Empire" "+25% Fuel generation" (.resource "fuel" 5000)),
   (20, mkAch "Upgrade Master" "+10% upgrade efficiency" (.upgrade (some 10) none)),
   (21, mkAch "World Factory" "Unlock Tier 3 worlds" (.worlds 25)),
   (22, mkAch "Stability Fortress" "+30% Stability generation" (.resource "stability" 100)),
   (23, mkAch "Synergy Master" "+25% synergy effectiveness"
     (.synergy false none (some 100))),
   (24, mkAch "Heat Titan" "+50% Heat generation" (.resource "heat" 100000)),
   (25, mkAch "Fuel Ocean" "+40% Fuel generation" (.resource "fuel" 50000)),
   (26, mkAch "Upgrade Legend" "Unlock legendary upgrades"
     (.upgrade none (some ["heatGenerator", "fuelEfficiency"]))),
   (27, mkAch "Universe Builder" "Unlock universe mode" (.worlds 75)),
   (28, mkAch "Pressure God" "+50% Pressure conversion" (.other "pressure_to_heat")),
   (29, mkAch "Energy Nexus" "+40% Energy generation" (.resource "energy" 1000)),
   (30, mkAch "Perfect Balance" "+25% all generation"
     (.balance ["heat", "fuel", "pressure", "energy", "stability"] 1000)),
   (31, mkAch "Speed Runner" "+100% early game speed"
     (.speed (some 17) none none 3600)),
   (32, mkAch "Efficiency Expert" "+50% efficiency cap" (.other "stat")),
   (33, mkAch "World Architect" "Unlock custom worlds" (.other "variety")),
   (34, mkAch "Resource Hoarder" "+20% resource storage" (.total 1000000)),
   (35, mkAch "Upgrade Collector" "+30% upgrade effectiveness" (.other "collection")),
   (36, { name := "Hidden Power", reward := "???",
          requirement := .secret "MACHINE_POWER", hidden := true }),
   (37, mkAch "Time Master" "+50% offline progress" (.playtime 86400)),
   (38, mkAch "Click Master" "+25% manual generation" (.clicks 1000)),
   (39, mkAch "Reset Veteran" "+100% reset bonuses" (.resets 3)),
   (40, mkAch "Achievement Hunter" "+50% achievement bonuses" (.achievements 25)),
   (41, mkAch "Mega Worlds" "Unlock mega worlds" (.worlds 150)),
   (42, mkAch "Heat Infinity" "+100% Heat generation" (.resource "heat" 1000000)),
   (43, mkAch "Fuel Cosmos" "+100% Fuel generation" (.resource "fuel" 1000000)),
   (44, mkAch "Ultimate Builder" "Unlock ultimate mode" (.worlds 250)),
   (45, mkAch "Perfect Synergy" "+100% synergy power" (.synergy true none none)),
   (46, mkAch "Resource God" "+75% all generation"
     (.balance ["heat", "fuel", "pressure", "energy", "stability"] 100000)),
   (47, mkAch "Legendary Status" "Unlock prestige mode" (.completion none (some 100))),
   (48, { name := "Secret Keeper", reward := "???",
          requirement := .secret "WORLD_MACHINE", hidden := true }),
   (49, mkAch "Time Lord" "+200% time bonuses" (.playtime 604800)),
   (50, mkAch "Master of Worlds" "Master title + 1000% all bonuses"
     (.completion (some 69) none)),
   (51, mkAch "Conversion Expert" "Unlock auto-conversion"
     (.conversion "pressure" "heat" 500)),
   (52, mkAch "Energy Converter" "+50% conversion efficiency"
     (.conversion "energy" "fuel" 200)),
   (53, mkAch "Efficiency Master" "Unlock ratio bonuses"
     (.ratio ["heat", "fuel"] [3, 1])),
   (54, mkAch "Resource Optimizer" "+25% balanced generation"
     (.maintain ["heat", "fuel", "pressure"] [2, 1, 1] 300)),
   (55, mkAch "Daily Dedication" "Unlock daily bonuses" (.streak "daily" 7)),
   (56, mkAch "Resource Streak" "+30% continuous generation"
     (.streak "generation" 100)),
   (57, mkAch "Upgrade Spree" "Unlock bulk purchasing"
     (.speed none (some "upgrades") (some 5) 60)),
   (58, mkAch "Explorer" "Resource generation overview" (.discovery "generation" 5)),
   (59, mkAch "Strategist" "Manual generation x2" (.challenge "manual" "heat" 1000)),
   (60, mkAch "Multi-tasker" "+20% parallel efficiency"
     (.simultaneous "generation" 5)),
   (61, mkAch "Storage Expert" "+50% all resource caps" (.caps "reached" 10)),
   (62, mkAch "Automation Lover" "Unlock advanced automation"
     (.usage "automation" 3600)),
   (63, mkAch "Interface Master" "Unlock quick navigation"
     (.navigation "all_pages" 20)),
   (64, mkAch "Minimalist" "Upgrade efficiency +100%"
     (.constraint "upgrades" 2 "worlds" 10)),
   (65, mkAch "Speed Builder" "World creation speed +200%"
     (.speed none (some "worlds") (some 5) 600)),
   (66, mkAch "Enhanced Explorer" "+15% Tier 2 world bonuses" (.tier 2 1)),
   (67, mkAch "Enhanced Master" "+25% Tier 2 world generation" (.tier 2 10)),
   (68, mkAch "Exotic Pioneer" "+20% Tier 3 world bonuses" (.tier 3 1)),
   (69, mkAch "Reality Bender" "Unlock reality manipulation" (.tier 3 5)),
   (70, mkAch "Tier Master" "+50% cross-tier synergy"
     (.tierVariety [1, 2, 3] 3))]

/-- The `Object.values(state.upgrades).reduce(...)` upgrade counter of
the `upgrade`/`constraint` requirement cases. -/
def countActiveUpgrades (s : GState) : Nat :=
  (s.upgrades.filter (fun ku => 0 < ku.2.level)).length

/-- The basic-upgrades-maxed test of the `completion` case
(`percentage === 100`) and the `maxed` list test of the `upgrade` case. -/
def upgradesMaxed (s : GState) (names : List String) : Bool :=
  names.all (fun n =>
    match alookup s.upgrades n with
    | some u => u.maxLevel ≤ u.level
    | none => false)

/-- AchievementSystem.checkRequirement, with `Date.now()` passed in as
`clock` (milliseconds).  Requirement shapes whose runtime type string has
no switch case fall through to `return false`. -/
def checkRequirement (clock : ℚ) (s : GState) : Requirement → Bool
  | .resource rname amount => amount ≤ agetD s.resources rname
  | .worlds amount => amount ≤ (s.worldsCreated : ℚ)
  | .upgrade count maxed =>
      match count with
      | some c => c ≤ (countActiveUpgrades s : ℚ)
      | none =>
          match maxed with
          | some names => upgradesMaxed s names
          | none => false
  | .achievements amount => amount ≤ (s.achievements.unlocked.length : ℚ)
  | .playtime amount => amount ≤ s.playtime
  | .clicks amount => amount ≤ s.totalClicks
  | .resets amount => amount ≤ s.totalResets
  | .synergy all _ count =>
      if all then (40 : ℚ) < agetD s.resources "pressure"
      else
        match count with
        | some c => c ≤ s.synergyActivations
        | none => false
  | .balance rs amount => rs.all (fun r => amount ≤ agetD s.resources r)
  | .total amount =>
      amount ≤ s.resources.foldl (fun sum kv => sum + kv.2) 0
  | .completion ach percentage =>
      match ach with
      | some a => a ≤ (s.achievements.unlocked.length : ℚ)
      | none =>
          match percentage with
          | some p =>
              if p = 100 then upgradesMaxed s ["heatGenerator", "fuelEfficiency"]
              else false
          | none => false
  | .speed achievement category count time =>
      -- the first branch returns only when the referenced achievement is
      -- unlocked; otherwise control falls through to the category branch
      let part1 : Option Bool :=
        match achievement with
        | some aid =>
            if s.achievements.unlocked.contains aid then
              some (decide ((clock - (if s.gameStartTime = 0 then clock
                else s.gameStartTime)) / 1000 ≤ time))
            else none
        | none => none
      match part1 with
      | some b => b
      | none =>
          match category, count with
          | some cat, some c =>
              let actions := (alookup s.recentActions cat).getD []
              c ≤ ((actions.filter
                (fun ts => clock - ts ≤ time * 1000)).length : ℚ)
          | _, _ => false
  | .conversion src dst amount =>
      amount ≤ (alookup s.conversions (src ++ "_to_" ++ dst)).getD 0
  | .ratio rs ratioVals =>
      let values := rs.map (fun r => agetD s.resources r)
      if values.any (fun v => v = 0) then false
      else
        -- the JS loop compares values[i]/values[0] with ratio[i]/ratio[0];
        -- indices past either list's end never fail the loop
        match values, ratioVals with
        | v0 :: vrest, r0 :: rrest =>
            (vrest.zip rrest).all (fun p => |p.1 / v0 - p.2 / r0| ≤ 1/10)
        | _, _ => true
  | .maintain rs _ duration =>
      let key := String.intercalate "_" rs ++ "_ratio"
      match alookup s.maintenance key with
      | some d => duration ≤ d
      | none => false
  | .streak category count => count ≤ (alookup s.streaks category).getD 0
  | .discovery category count =>
      count ≤ (((alookup s.discoveries category).getD []).length : ℚ)
  | .challenge method rname amount =>
      if method = "manual" then
        amount ≤ (alookup s.manualGeneration rname).getD 0
      else false
  | .simultaneous category count =>
      if category = "generation" then
        count ≤ ((s.resources.filter (fun kv => 0 < kv.2)).length : ℚ)
      else false
  | .caps category count =>
      if category = "reached" then count ≤ s.capHits else false
  | .usage category duration =>
      duration ≤ (alookup s.featureUsage category).getD 0
  | .navigation category count =>
      if category = "all_pages" then
        ["main", "upgrades", "worlds", "achievements", "settings"].all
          (fun page => count ≤ (alookup s.pageVisits page).getD 0)
      else false
  | .constraint category maxTypes goalType goalAmount =>
      if category = "upgrades" then
        if maxTypes < (countActiveUpgrades s : ℚ) then false
        else if goalType = "worlds" then
          goalAmount ≤ (s.worldsCreated : ℚ)
        else false
      else false
  | .tier tierNum needWorlds =>
      needWorlds ≤ (alookup s.tierWorldCounts ("tier" ++ toString tierNum)).getD 0
  | .tierVariety tiers minEach =>
      tiers.all (fun t =>
        minEach ≤ (alookup s.tierWorldCounts ("tier" ++ toString t)).getD 0)
  | .secret _ => false
  | .other _ => false

/-- AchievementSystem.checkHiddenRequirement: a hidden achievement is only
considered when its secret code has been entered. -/
def checkHiddenRequirement (s : GState) : Requirement → Bool
  | .secret code => s.secretCodes.contains code
  | _ => false

/-- The `for ... of Object.entries(definitions)` loop of
AchievementSystem.checkAchievements, threading the growing unlocked set
(pushes made earlier in the same call are visible to later checks). -/
def checkAchAux (clock : ℚ) :
    List (Nat × AchDef) → GState → List Nat → List Nat × GState
  | [], s, newly => (newly, s)
  | (aid, a) :: rest, s, newly =>
      if s.achievements.unlocked.contains aid then
        checkAchAux clock rest s newly
      else if a.hidden ∧ ¬ checkHiddenRequirement s a.requirement then
        checkAchAux clock rest s newly
      else if checkRequirement clock s a.requirement then
        checkAchAux clock rest
          { s with achievements :=
              { s.achievements with
                  unlocked := s.achievements.unlocked ++ [aid] } }
          (newly ++ [aid])
      else checkAchAux clock rest s newly

/-- AchievementSystem.checkAchievements: returns the ids newly unlocked by
this call together with the updated state. -/
def checkAchievements (clock : ℚ) (s : GState) : List Nat × GState :=
  checkAchAux clock achievementDefs s []

/-! ## Save-data validation (GameState.validateSaveData) over JS values

The validator receives whatever `JSON.parse` produced, so it is embedded
over a JS value tree with full JS number semantics (NaN and ±Infinity are
`typeof 'number'`). -/

/-- A JS number: a finite value, an infinity, or NaN. -/
inductive JSNum where
  | mk (q : ℚ)
  | inf
  | negInf
  | nan
  deriving DecidableEq, Repr

/-- A JS value as produced by `JSON.parse` (plus `undefined` for absent
property reads). -/
inductive JSVal where
  | undefV
  | null
  | bool (b : Bool)
  | num (n : JSNum)
  | str (s : String)
  | arr (elems : List JSVal)
  | obj (fields : List (String × JSVal))

/-- JS truthiness. -/
def jsTruthy : JSVal → Bool
  | .undefV => false
  | .null => false
  | .bool b => b
  | .num (.mk q) => q ≠ 0
  | .num .nan => false
  | .num .inf => true
  | .num .negInf => true
  | .str s => s ≠ ""
  | .arr _ => true
  | .obj _ => true

/-- `typeof v === 'object'` (true for objects, arrays and `null`). -/
def jsIsObjectType : JSVal → Bool
  | .null => true
  | .arr _ => true
  | .obj _ => true
  | _ => false

/-- Property read `v[k]`: absent properties (and reads off non-objects)
give `undefined`. -/
def jsGet (v : JSVal) (k : String) : JSVal :=
  match v with
  | .obj fields => match alookup fields k with
    | some w => w
    | none => .undefV
  | _ => .undefV

/-- `k in v` (named properties; an array has none of the names tested
here). -/
def jsHasProp (v : JSVal) (k : String) : Bool :=
  match v with
  | .obj fields => (alookup fields k).isSome
  | _ => false

/-- `n < 0` for a JS number (`NaN < 0` is false). -/
def jsNumLt0 : JSNum → Bool
  | .mk q => decide (q < 0)
  | .negInf => true
  | .inf => false
  | .nan => false

/-- `isFinite(n)`. -/
def jsNumFinite : JSNum → Bool
  | .mk _ => true
  | _ => false

/-- The per-value check used for resource amounts and upgrade levels:
`typeof value === 'number' && !(value < 0) && isFinite(value)`. -/
def validNumberVal : JSVal → Bool
  | .num n => ¬ jsNumLt0 n ∧ jsNumFinite n
  | _ => false

/-- `Object.entries(v)` for the upgrades loop (array entries are indexed;
primitives have none). -/
def jsEntries : JSVal → List (String × JSVal)
  | .obj fields => fields
  | .arr xs => xs.enum.map (fun p => (toString p.1, p.2))
  | _ => []

/-- The five known resource keys validated by GameState.validateSaveData. -/
def coreResourceNames : List String :=
  ["heat", "fuel", "pressure", "energy", "stability"]

/-- The `worldsCreated` check of validateSaveData:
`typeof data.worldsCreated === 'number' && !(data.worldsCreated < 0)` —
with no finiteness conjunct. -/
def validWorldsCreatedVal : JSVal → Bool
  | .num n => ¬ jsNumLt0 n
  | _ => false

/-- `Array.isArray(v)`. -/
def jsIsArray : JSVal → Bool
  | .arr _ => true
  | _ => false

/-- GameState.validateSaveData.  Note that the `worldsCreated` check tests
only `typeof !== 'number' || < 0`: unlike the resource and upgrade-level
checks, it has no `isFinite` conjunct, so `NaN` and `Infinity` pass. -/
def validateSaveData (data : JSVal) : Bool :=
  if ¬ (jsTruthy data ∧ jsIsObjectType data) then false
  else if ¬ (jsHasProp data "worldsCreated" ∧ jsHasProp data "resources" ∧
      jsHasProp data "upgrades") then false
  else if ¬ validWorldsCreatedVal (jsGet data "worldsCreated") then false
  else
    let resources := jsGet data "resources"
    if ¬ (jsTruthy resources ∧ jsIsObjectType resources) then false
    else if ¬ (coreResourceNames.all (fun r =>
        match jsGet resources r with
        | .undefV => true
        | v => validNumberVal v)) then false
    else
      let upgrades := jsGet data "upgrades"
      if ¬ (jsTruthy upgrades ∧ jsIsObjectType upgrades) then false
      else if ¬ ((jsEntries upgrades).all (fun kv =>
          if jsTruthy kv.2 ∧ jsIsObjectType kv.2 then
            match jsGet kv.2 "level" with
            | .undefV => true
            | v => validNumberVal v
          else true)) then false
      else
        let wh := jsGet data "worldHistory"
        if jsTruthy wh ∧ ¬ jsIsArray wh then false
        else true

/-! ## Backup restore and load (GameState.loadGame / restoreFromBackup) -/

/-- A stored save string: either it parses to a JS value or `JSON.parse`
throws on it. -/
inductive Blob where
  | ok (v : JSVal)
  | malformed

/-- The localStorage slots the save system uses: the main save plus the
timestamped backup entries tracked by the backup index list. -/
structure Storage where
  save : Option Blob
  backups : List (ℚ × Blob)

/-- The newest backup (GameState.restoreFromBackup sorts by timestamp
descending — a stable sort, so ties keep the earlier entry — and takes the
first). -/
def newestBackup : List (ℚ × Blob) → Option (ℚ × Blob)
  | [] => none
  | b :: rest =>
      some (rest.foldl (fun best c => if best.1 < c.1 then c else best) b)

/-- GameState.restoreFromBackup: restore the *newest* backup, but only if
that backup itself parses and validates; any failure (no backups, parse
error, validation failure) returns false and leaves storage unchanged.
An older valid backup behind an invalid newest one is never consulted. -/
def restoreFromBackup (st : Storage) : Bool × Storage :=
  match newestBackup st.backups with
  | none => (false, st)
  | some tb =>
      match tb.2 with
      | .malformed => (false, st)
      | .ok v =>
          if validateSaveData v then (true, { st with save := some (.ok v) })
          else (false, st)

/-- GameState.createBackup: copy the current save into a backup slot keyed
by `Date.now()`. -/
def createBackup (clock : ℚ) (st : Storage) : Storage :=
  match st.save with
  | some b => { st with backups := st.backups ++ [(clock, b)] }
  | none => st

/-- GameState.loadGame at the storage level: read → parse → validate → on
failure restore from backup and retry (`return this.loadGame()`), else
return false with storage untouched; on success a backup of the current
save is created before the merge.  The JS recursion is embedded with a fuel
parameter; its real depth is at most 2, because a restored save was
validated by `restoreFromBackup` and therefore succeeds on the retry.  The
merge of the loaded value into the in-memory state is verified separately
at the typed level (`loadAfterSave` below). -/
def loadGameFuel (clock : ℚ) : Nat → Storage → Bool × Storage
  | 0, st => (false, st)
  | fuel + 1, st =>
      match st.save with
      | none => (false, st)
      | some .malformed =>
          let r := restoreFromBackup st
          if r.1 then loadGameFuel clock fuel r.2 else (false, r.2)
      | some (.ok v) =>
          if validateSaveData v then (true, createBackup clock st)
          else
            let r := restoreFromBackup st
            if r.1 then loadGameFuel clock fuel r.2 else (false, r.2)

/-! ## Typed save/load round trip (GameState.saveGame → GameState.loadGame)

`JSON.stringify`/`JSON.parse` is the identity on the (finite-valued) typed
state, so saving and immediately loading in the same session reduces to the
merge block of loadGame applied with both the in-memory and the parsed
state equal to `s`, followed by validateAndFixState. -/

/-- JS object spread `{...base, ...over}`: base keys first (values from
`over` where present), then the keys only `over` has, in order. -/
def mergeSpread {α : Type} (base over : List (String × α)) :
    List (String × α) :=
  over.foldl (fun acc kv => aset acc kv.1 kv.2) base

/-- The merge object literal of GameState.loadGame (lines 649-687): all
top-level fields come from the parsed data (the typed state is
schema-complete, so the nested `{...this.state.x, ...parsedData.x}` merges
also resolve to the parsed values except for the explicit `||` fallbacks
and the key-ordering effect of the resources spread). -/
def mergeLoad (cur parsed : GState) : GState :=
  { parsed with
      upgrades := mergeSpread cur.upgrades parsed.upgrades,
      resources := mergeSpread cur.resources parsed.resources,
      -- `parsedData.currentWorld || this.state.currentWorld`
      currentWorld := match parsed.currentWorld with
        | some w => some w
        | none => cur.currentWorld,
      -- `parsedData.worldHistory || []` (a JS array, even empty, is truthy)
      worldHistory := parsed.worldHistory }

/-- The placeholder world-history migration of GameState.validateAndFixState
(`id i`, fake timestamps `Date.now() - (worldsCreated - i) * 60000`). -/
def placeholderHistory (clock : ℚ) (n : Nat) : List WorldHistEntry :=
  (List.range n).map (fun i =>
    { hid := i + 1, htype := "Desert", tier := 1, gravity := 1, timeSpeed := 1,
      temperature := 25, atmosphere := 50, weather := "Calm",
      weatherDuration := 10,
      createdAt := clock - ((n : ℚ) - ((i : ℚ) + 1)) * 60000 })

/-- The per-upgrade spread `{...defaultUpgrade, ...existing}` of
GameState.validateAndFixState: a field present on the existing record
wins, an absent optional field (`unlocked`, the `requires*` gates) is
filled in from the default; `level`, `maxLevel` and `baseCost` are always
present on a record of the typed schema. -/
def spreadUpgrade (d u : Upgrade) : Upgrade :=
  { level := u.level, maxLevel := u.maxLevel, baseCost := u.baseCost,
    unlocked := match u.unlocked with
      | some b => some b
      | none => d.unlocked,
    requiresHeat := match u.requiresHeat with
      | some q => some q
      | none => d.requiresHeat,
    requiresPressure := match u.requiresPressure with
      | some q => some q
      | none => d.requiresPressure,
    requiresFuel := match u.requiresFuel with
      | some q => some q
      | none => d.requiresFuel,
    requiresEnergy := match u.requiresEnergy with
      | some q => some q
      | none => d.requiresEnergy,
    requiresStability := match u.requiresStability with
      | some q => some q
      | none => d.requiresStability }

/-- The upgrade-defaults pass of GameState.validateAndFixState: every
missing default upgrade key is inserted as a copy of the default; a
present key is replaced by the spread `{...defaultUpgrade, ...existing}`,
which fills any absent optional field from the default. -/
def fixUpgrades (ups : List (String × Upgrade)) : List (String × Upgrade) :=
  defaultUpgrades.foldl
    (fun acc kd =>
      match alookup acc kd.1 with
      | none => aset acc kd.1 kd.2
      | some u => aset acc kd.1 (spreadUpgrade kd.2 u))
    ups

/-- GameState.validateAndFixState (current revision): old-save
worldHistory migration, upgrade-defaults fill, and the
`{...defaultResources, ...this.state.resources}` respread (the typed state
always has `worldHistory` and `activeEvents`, so those existence fixes are
identities). -/
def validateAndFixState (clock : ℚ) (s : GState) : GState :=
  let s :=
    if s.worldHistory.isEmpty ∧ 0 < s.worldsCreated then
      { s with worldHistory := placeholderHistory clock s.worldsCreated }
    else s
  let s := { s with upgrades := fixUpgrades s.upgrades }
  { s with resources := mergeSpread defaultResourcesFive s.resources }

/-- saveGame followed immediately by loadGame in the same session: the
stored JSON parses back to `s` and is merged over the still-in-memory `s`,
then validateAndFixState runs. -/
def loadAfterSave (clock : ℚ) (s : GState) : GState :=
  validateAndFixState clock (mergeLoad s s)

/-- The typed specialization of GameState.validateSaveData to a state of
the typed schema (worldsCreated is a Nat, all numbers are finite, and
worldHistory is an array, so those checks hold by typing): every present
core resource is non-negative and every upgrade level is non-negative. -/
def validStateForSave (s : GState) : Bool :=
  (coreResourceNames.all (fun r =>
    match alookup s.resources r with
    | some v => decide (0 ≤ v)
    | none => true)) &&
  s.upgrades.all (fun ku => decide (0 ≤ ku.2.level))

/-! ## The reachable-state machine

The transition system generated by the operations named in the
spec's reachability invariant: generation actions (all of which credit
resources through GameState.addResources), upgrade purchases, event
choices, active-event ticks, achievement re-checks, and save/load.  The
`Math.random()`-driven reachability of any event choice is reflected by
letting any catalog event/choice fire at any step. -/

/-- The in-memory game state together with the persisted save slot. -/
structure Machine where
  game : GState
  saved : Option GState

/-- The starting configuration: fresh constructor state, nothing saved. -/
def initMachine : Machine := { game := initState, saved := none }

/-- One step of the progression engine.  Each constructor embeds the source
operation named in its comment. -/
inductive Step : Machine → Machine → Prop where
  | generate (m : Machine) (deltas : List (String × ℚ)) :
      -- any generation action: all of them funnel their (arbitrary)
      -- computed deltas through GameState.addResources
      Step m { m with game := addResources m.game deltas }
  | purchase (m : Machine) (u r : String) :
      -- UpgradeSystem.upgradeResource
      Step m { m with game := (upgradeResource m.game u r).2 }
  | clickEnergy (m : Machine) :
      -- Game.generateEnergy
      Step m { m with game := generateEnergyClick m.game }
  | decay (m : Machine) (w : Option World) :
      -- ResourceSystem.applyResourceDecay
      Step m { m with game := applyResourceDecay m.game w }
  | eventChoice (m : Machine) (clock : ℚ) (ev : EventDef) (ch : EventChoice)
      (hev : ev ∈ eventDefinitions) (hch : ch ∈ ev.choices) :
      -- EventSystem.selectEventChoice on a rolled catalog event
      Step m { m with game := selectEventChoice clock m.game ev ch }
  | tick (m : Machine) :
      -- EventSystem.updateActiveEvents
      Step m { m with game := updateActiveEvents m.game }
  | achCheck (m : Machine) (clock : ℚ) :
      -- AchievementSystem.checkAchievements
      Step m { m with game := (checkAchievements clock m.game).2 }
  | save (m : Machine) :
      -- GameState.saveGame (stringify of the current state)
      Step m { m with saved := some m.game }
  | load (m : Machine) (sb : GState) (clock : ℚ) (hs : m.saved = some sb) :
      -- GameState.loadGame: merge the validated parsed save over the
      -- in-memory state; a failed validation leaves the state in place
      Step m { m with game :=
        if validStateForSave sb then validateAndFixState clock (mergeLoad m.game sb)
        else m.game }

/-- The states reachable from a fresh game. -/
def Reachable (m : Machine) : Prop :=
  Relation.ReflTransGen Step initMachine m

/-- The resource invariant exactly as the spec states it: every resource
amount is non-negative and each capped resource is at or below its current
effective cap (pressure 100, energy 200, stability 50; doubled while the
current world has the `noResourceLimits` special effect; heat and fuel
uncapped). -/
def ClaimedInvariant (s : GState) : Prop :=
  (∀ kv ∈ s.resources, (0 : ℚ) ≤ kv.2) ∧
  (∀ v, alookup s.resources "pressure" = some v →
    v ≤ (if noResourceLimits s.currentWorld then 200 else 100)) ∧
  (∀ v, alookup s.resources "energy" = some v →
    v ≤ (if noResourceLimits s.currentWorld then 400 else 200)) ∧
  (∀ v, alookup s.resources "stability" = some v →
    v ≤ (if noResourceLimits s.currentWorld then 100 else 50))

/-- The provable part of the resource invariant: the five core resources
stay non-negative and pressure stays at or below 100 in every reachable
state. -/
def CoreInvariant (s : GState) : Prop :=
  (∀ r ∈ coreResourceNames, ∀ v, alookup s.resources r = some v → 0 ≤ v) ∧
  (∀ v, alookup s.resources "pressure" = some v → v ≤ 100)

/-! ## Association-list lemmas -/

theorem alookup_aset_self {α : Type} (m : List (String × α)) (k : String)
    (v : α) : alookup (aset m k v) k = some v := by
  induction m with
  | nil => simp [aset, alookup]
  | cons kv rest ih =>
      obtain ⟨k', v'⟩ := kv
      by_cases h : k' = k
      · simp [aset, h, alookup]
      · simp [aset, h, alookup, ih]

theorem alookup_aset_ne {α : Type} (m : List (String × α)) (k k' : String)
    (v : α) (h : k' ≠ k) : alookup (aset m k v) k' = alookup m k' := by
  have hne : k ≠ k' := fun hh => h hh.symm
  induction m with
  | nil => simp [aset, alookup, hne]
  | cons kv rest ih =>
      obtain ⟨k₀, v₀⟩ := kv
      by_cases h0 : k₀ = k
      · subst h0
        simp [aset, alookup, hne]
      · simp [aset, h0, alookup, ih]

theorem mem_aset {α : Type} (m : List (String × α)) (k : String) (v : α)
    (kv : String × α) (h : kv ∈ aset m k v) : kv = (k, v) ∨ kv ∈ m := by
  induction m with
  | nil => simpa [aset] using h
  | cons e rest ih =>
      obtain ⟨k₀, v₀⟩ := e
      by_cases h0 : k₀ = k
      · simp only [aset, h0, if_pos rfl] at h
        rcases List.mem_cons.mp h with h | h
        · exact Or.inl h
        · exact Or.inr (List.mem_cons_of_mem _ h)
      · simp only [aset, h0, if_neg h0] at h
        rcases List.mem_cons.mp h with h | h
        · exact Or.inr (by simp [h])
        · rcases ih h with h | h
          · exact Or.inl h
          · exact Or.inr (List.mem_cons_of_mem _ h)

theorem alookup_mem {α : Type} (m : List (String × α)) (k : String) (v : α)
    (h : alookup m k = some v) : (k, v) ∈ m := by
  induction m with
  | nil => simp [alookup] at h
  | cons e rest ih =>
      obtain ⟨k₀, v₀⟩ := e
      by_cases h0 : k₀ = k
      · simp only [alookup, if_pos h0] at h
        obtain rfl := Option.some_injective _ h
        simp [h0]
      · simp only [alookup, if_neg h0] at h
        exact List.mem_cons_of_mem _ (ih h)

theorem keys_aset_mem {α : Type} (m : List (String × α)) (k : String) (v : α)
    (a : String) (h : a ∈ (aset m k v).map Prod.fst) :
    a = k ∨ a ∈ m.map Prod.fst := by
  rcases List.mem_map.mp h with ⟨kv, hkv, rfl⟩
  rcases mem_aset m k v kv hkv with h | h
  · exact Or.inl (by rw [h])
  · exact Or.inr (List.mem_map_of_mem _ h)

theorem nodup_aset {α : Type} (m : List (String × α)) (k : String) (v : α)
    (h : (m.map Prod.fst).Nodup) : ((aset m k v).map Prod.fst).Nodup := by
  induction m with
  | nil => simp [aset]
  | cons e rest ih =>
      obtain ⟨k₀, v₀⟩ := e
      simp only [List.map_cons, List.nodup_cons] at h
      by_cases h0 : k₀ = k
      · subst h0
        simpa [aset, List.nodup_cons] using h
      · simp only [aset, if_neg h0, List.map_cons, List.nodup_cons]
        refine ⟨fun hmem => ?_, ih h.2⟩
        rcases keys_aset_mem rest k v k₀ hmem with h1 | h1
        · exact h0 h1
        · exact h.1 h1

theorem aset_aset {α : Type} (m : List (String × α)) (k : String) (v w : α) :
    aset (aset m k v) k w = aset m k w := by
  induction m with
  | nil => simp [aset]
  | cons e rest ih =>
      obtain ⟨k₀, v₀⟩ := e
      by_cases h0 : k₀ = k
      · simp [aset, h0]
      · simp [aset, h0, ih]

theorem aset_self_of_alookup {α : Type} (m : List (String × α)) (k : String)
    (v : α) (h : alookup m k = some v) : aset m k v = m := by
  induction m with
  | nil => simp [alookup] at h
  | cons e rest ih =>
      obtain ⟨k₀, v₀⟩ := e
      by_cases h0 : k₀ = k
      · simp only [alookup, if_pos h0] at h
        obtain rfl := Option.some_injective _ h
        simp [aset, h0]
      · simp only [alookup, if_neg h0] at h
        simp [aset, h0, ih h]

theorem mem_mergeSpread {α : Type} (base over : List (String × α))
    (kv : String × α) (h : kv ∈ mergeSpread base over) :
    kv ∈ base ∨ kv ∈ over := by
  induction over generalizing base with
  | nil => exact Or.inl (by simpa [mergeSpread] using h)
  | cons e rest ih =>
      have h' : kv ∈ mergeSpread (aset base e.1 e.2) rest := by
        simpa [mergeSpread] using h
      rcases ih _ h' with h1 | h1
      · rcases mem_aset base e.1 e.2 kv h1 with h2 | h2
        · exact Or.inr (by simp [h2])
        · exact Or.inl h2
      · exact Or.inr (List.mem_cons_of_mem _ h1)

theorem nodup_mergeSpread {α : Type} (base over : List (String × α))
    (h : (base.map Prod.fst).Nodup) :
    ((mergeSpread base over).map Prod.fst).Nodup := by
  induction over generalizing base with
  | nil => simpa [mergeSpread] using h
  | cons e rest ih =>
      have : mergeSpread base (e :: rest) = mergeSpread (aset base e.1 e.2) rest := by
        simp [mergeSpread]
      rw [this]
      exact ih _ (nodup_aset base e.1 e.2 h)

theorem alookup_mergeSpread {α : Type} (base over : List (String × α))
    (k : String) (h : (over.map Prod.fst).Nodup) :
    alookup (mergeSpread base over) k =
      (alookup over k).orElse (fun _ => alookup base k) := by
  induction over generalizing base with
  | nil => simp [mergeSpread, alookup]
  | cons e rest ih =>
      obtain ⟨k₀, v₀⟩ := e
      simp only [List.map_cons, List.nodup_cons] at h
      have hstep : mergeSpread base ((k₀, v₀) :: rest) =
          mergeSpread (aset base k₀ v₀) rest := by
        simp [mergeSpread]
      rw [hstep, ih _ h.2]
      by_cases hk : k₀ = k
      · subst hk
        have hrest : alookup rest k₀ = none := by
          cases hl : alookup rest k₀ with
          | none => rfl
          | some v =>
              exact absurd (List.mem_map_of_mem Prod.fst (alookup_mem rest k₀ v hl)) h.1
        simp [alookup, hrest, alookup_aset_self]
      · simp [alookup, hk, alookup_aset_ne base k₀ k v₀ fun hh => hk hh.symm]

theorem alookup_of_mem_nodup {α : Type} (m : List (String × α))
    (kv : String × α) (h : (m.map Prod.fst).Nodup) (hkv : kv ∈ m) :
    alookup m kv.1 = some kv.2 := by
  induction m with
  | nil => simp at hkv
  | cons e rest ih =>
      obtain ⟨k₀, v₀⟩ := e
      simp only [List.map_cons, List.nodup_cons] at h
      rcases List.mem_cons.mp hkv with h1 | h1
      · simp [h1, alookup]
      · have hne : k₀ ≠ kv.1 := by
          intro hh
          exact h.1 (hh ▸ List.mem_map_of_mem Prod.fst h1)
        simp only [alookup, if_neg hne]
        exact ih h.2 h1

theorem mergeSpread_of_alookup {α : Type} (l base : List (String × α))
    (hmem : ∀ kv ∈ l, alookup base kv.1 = some kv.2) :
    mergeSpread base l = base := by
  induction l generalizing base with
  | nil => simp [mergeSpread]
  | cons e rest ih =>
      have hstep : mergeSpread base (e :: rest) =
          mergeSpread (aset base e.1 e.2) rest := by
        simp [mergeSpread]
      have hself : aset base e.1 e.2 = base :=
        aset_self_of_alookup base e.1 e.2 (hmem e (by simp))
      rw [hstep, hself]
      exact ih base (fun kv hkv => hmem kv (List.mem_cons_of_mem _ hkv))

theorem mergeSpread_self {α : Type} (m : List (String × α))
    (h : (m.map Prod.fst).Nodup) : mergeSpread m m = m :=
  mergeSpread_of_alookup m m (fun kv hkv => alookup_of_mem_nodup m kv h hkv)

/-! ## Arithmetic and cap-enforcement lemmas -/

theorem jfloor_nonneg (q : ℚ) (h : 0 ≤ q) : 0 ≤ jfloor q := by
  unfold jfloor
  exact_mod_cast Int.floor_nonneg.mpr h

theorem jfloor_le (q : ℚ) : jfloor q ≤ q := Int.floor_le q

theorem clampKey_of_none (m : List (String × ℚ)) (k : String)
    (cap : Option ℚ) (h : alookup m k = none) : clampKey m k cap = m := by
  simp [clampKey, h]

theorem clampKey_nocap (m : List (String × ℚ)) (k : String) (v : ℚ)
    (h : alookup m k = some v) :
    clampKey m k none = if v < 0 then aset m k 0 else m := by
  simp [clampKey, h]

theorem clampKey_cap (m : List (String × ℚ)) (k : String) (v c : ℚ)
    (h : alookup m k = some v) :
    clampKey m k (some c) =
      if c < v then (if c < 0 then aset m k 0 else aset m k c)
      else if v < 0 then aset m k 0 else m := by
  by_cases hc : c < v
  · simp [clampKey, h, hc, alookup_aset_self, aset_aset]
  · simp [clampKey, h, hc]

theorem alookup_clampKey_ne (m : List (String × ℚ)) (k k' : String)
    (cap : Option ℚ) (h : k' ≠ k) :
    alookup (clampKey m k cap) k' = alookup m k' := by
  cases hl : alookup m k with
  | none => rw [clampKey_of_none m k cap hl]
  | some v =>
      cases cap with
      | none =>
          rw [clampKey_nocap m k v hl]
          split
          · exact alookup_aset_ne m k k' 0 h
          · rfl
      | some c =>
          rw [clampKey_cap m k v c hl]
          split
          · split
            · exact alookup_aset_ne m k k' 0 h
            · exact alookup_aset_ne m k k' c h
          · split
            · exact alookup_aset_ne m k k' 0 h
            · rfl

theorem clampKey_cap_bounds (m : List (String × ℚ)) (k : String) (c : ℚ)
    (hc : 0 ≤ c) (v' : ℚ)
    (h : alookup (clampKey m k (some c)) k = some v') : 0 ≤ v' ∧ v' ≤ c := by
  cases hl : alookup m k with
  | none =>
      rw [clampKey_of_none m k _ hl, hl] at h
      exact absurd h (by simp)
  | some v =>
      rw [clampKey_cap m k v c hl] at h
      by_cases h1 : c < v
      · rw [if_pos h1] at h
        by_cases h2 : c < 0
        · exact absurd hc (not_le.mpr h2)
        · rw [if_neg h2, alookup_aset_self] at h
          obtain rfl := Option.some_injective _ h
          exact ⟨hc, le_rfl⟩
      · rw [if_neg h1] at h
        by_cases h2 : v < 0
        · rw [if_pos h2, alookup_aset_self] at h
          obtain rfl := Option.some_injective _ h
          exact ⟨le_rfl, hc⟩
        · rw [if_neg h2, hl] at h
          obtain rfl := Option.some_injective _ h
          exact ⟨not_lt.mp h2, not_lt.mp h1⟩

theorem clampKey_nocap_nonneg (m : List (String × ℚ)) (k : String) (v' : ℚ)
    (h : alookup (clampKey m k none) k = some v') : 0 ≤ v' := by
  cases hl : alookup m k with
  | none =>
      rw [clampKey_of_none m k _ hl, hl] at h
      exact absurd h (by simp)
  | some v =>
      rw [clampKey_nocap m k v hl] at h
      by_cases h2 : v < 0
      · rw [if_pos h2, alookup_aset_self] at h
        obtain rfl := Option.some_injective _ h
        exact le_rfl
      · rw [if_neg h2, hl] at h
        obtain rfl := Option.some_injective _ h
        exact not_lt.mp h2

theorem nodup_clampKey (m : List (String × ℚ)) (k : String) (cap : Option ℚ)
    (h : (m.map Prod.fst).Nodup) :
    ((clampKey m k cap).map Prod.fst).Nodup := by
  cases hl : alookup m k with
  | none => rw [clampKey_of_none m k cap hl]; exact h
  | some v =>
      cases cap with
      | none =>
          rw [clampKey_nocap m k v hl]
          split
          · exact nodup_aset m k 0 h
          · exact h
      | some c =>
          rw [clampKey_cap m k v c hl]
          split
          · split
            · exact nodup_aset m k 0 h
            · exact nodup_aset m k c h
          · split
            · exact nodup_aset m k 0 h
            · exact h

theorem enforce_false_eq (res : List (String × ℚ)) :
    enforceResourceCaps false res =
      clampKey (clampKey (clampKey (clampKey (clampKey res "heat" none)
        "fuel" none) "pressure" (some 100)) "energy" (some 200))
        "stability" (some 50) := rfl

theorem enforce_false_pressure (res : List (String × ℚ)) (v : ℚ)
    (h : alookup (enforceResourceCaps false res) "pressure" = some v) :
    0 ≤ v ∧ v ≤ 100 := by
  rw [enforce_false_eq] at h
  rw [alookup_clampKey_ne _ "stability" "pressure" _ (by decide)] at h
  rw [alookup_clampKey_ne _ "energy" "pressure" _ (by decide)] at h
  exact clampKey_cap_bounds _ "pressure" 100 (by norm_num) v h

theorem enforce_false_nonneg (res : List (String × ℚ)) (r : String)
    (hr : r ∈ coreResourceNames) (v : ℚ)
    (h : alookup (enforceResourceCaps false res) r = some v) : 0 ≤ v := by
  rw [enforce_false_eq] at h
  simp only [coreResourceNames, List.mem_cons, List.not_mem_nil, or_false]
    at hr
  rcases hr with rfl | rfl | rfl | rfl | rfl
  · rw [alookup_clampKey_ne _ "stability" "heat" _ (by decide),
        alookup_clampKey_ne _ "energy" "heat" _ (by decide),
        alookup_clampKey_ne _ "pressure" "heat" _ (by decide),
        alookup_clampKey_ne _ "fuel" "heat" _ (by decide)] at h
    exact clampKey_nocap_nonneg _ "heat" v h
  · rw [alookup_clampKey_ne _ "stability" "fuel" _ (by decide),
        alookup_clampKey_ne _ "energy" "fuel" _ (by decide),
        alookup_clampKey_ne _ "pressure" "fuel" _ (by decide)] at h
    exact clampKey_nocap_nonneg _ "fuel" v h
  · rw [alookup_clampKey_ne _ "stability" "pressure" _ (by decide),
        alookup_clampKey_ne _ "energy" "pressure" _ (by decide)] at h
    exact (clampKey_cap_bounds _ "pressure" 100 (by norm_num) v h).1
  · rw [alookup_clampKey_ne _ "stability" "energy" _ (by decide)] at h
    exact (clampKey_cap_bounds _ "energy" 200 (by norm_num) v h).1
  · exact (clampKey_cap_bounds _ "stability" 50 (by norm_num) v h).1

theorem nodup_enforce_false (res : List (String × ℚ))
    (h : (res.map Prod.fst).Nodup) :
    ((enforceResourceCaps false res).map Prod.fst).Nodup := by
  rw [enforce_false_eq]
  exact nodup_clampKey _ _ _ (nodup_clampKey _ _ _ (nodup_clampKey _ _ _
    (nodup_clampKey _ _ _ (nodup_clampKey _ _ _ h))))

theorem nodup_applyDeltas (ds : List (String × ℚ)) (res : List (String × ℚ))
    (h : (res.map Prod.fst).Nodup) :
    ((applyDeltas res ds).map Prod.fst).Nodup := by
  induction ds generalizing res with
  | nil => exact h
  | cons d rest ih =>
      obtain ⟨k, amount⟩ := d
      simp only [applyDeltas]
      split
      · exact ih _ (nodup_aset res k _ h)
      · exact ih _ (nodup_aset res k _ h)

/-! ## The inductive invariant for the reachable-state machine -/

/-- The strengthened induction invariant: resource keys are duplicate-free
(they model a JS object), the five core resources are non-negative,
pressure is capped at 100, upgrade base costs are non-negative, the
permanent cost-reduction multiplier is non-negative, and the current world
carries no `noResourceLimits` effect (no catalog world does). -/
def InvAux (s : GState) : Prop :=
  (s.resources.map Prod.fst).Nodup ∧
  (∀ r ∈ coreResourceNames, ∀ v, alookup s.resources r = some v → 0 ≤ v) ∧
  (∀ v, alookup s.resources "pressure" = some v → v ≤ 100) ∧
  (∀ ku ∈ s.upgrades, 0 ≤ ku.2.baseCost) ∧
  0 ≤ s.permanentBonuses.upgradeCostReduction ∧
  noResourceLimits s.currentWorld = false

/-- The machine invariant: the live state and any saved snapshot satisfy
`InvAux`. -/
def MachInv (m : Machine) : Prop :=
  InvAux m.game ∧ ∀ sb, m.saved = some sb → InvAux sb

theorem agetD_nonneg (s : GState) (hs : InvAux s) (r : String)
    (hr : r ∈ coreResourceNames) : 0 ≤ agetD s.resources r := by
  unfold agetD
  cases hl : alookup s.resources r with
  | none => simp
  | some v => simpa using hs.2.1 r hr v hl

theorem agetD_pressure_le (s : GState) (hs : InvAux s) :
    agetD s.resources "pressure" ≤ 100 := by
  unfold agetD
  cases hl : alookup s.resources "pressure" with
  | none => norm_num
  | some v => simpa using hs.2.2.1 v hl

theorem agetD_aset_self (m : List (String × ℚ)) (k : String) (v : ℚ) :
    agetD (aset m k v) k = v := by
  simp [agetD, alookup_aset_self]

theorem agetD_aset_ne (m : List (String × ℚ)) (k k' : String) (v : ℚ)
    (h : k' ≠ k) : agetD (aset m k v) k' = agetD m k' := by
  simp [agetD, alookup_aset_ne m k k' v h]

/-- A single uncapped write of a non-negative value (capped at 100 when the
key is pressure) preserves the invariant. -/
theorem invAux_aset (s : GState) (hs : InvAux s) (k : String) (v : ℚ)
    (h0 : 0 ≤ v) (hcap : k = "pressure" → v ≤ 100) :
    InvAux { s with resources := aset s.resources k v } := by
  obtain ⟨hnd, hnn, hcapP, hups, hred, hnl⟩ := hs
  refine ⟨nodup_aset _ _ _ hnd, ?_, ?_, hups, hred, hnl⟩
  · intro r hr w hw
    by_cases hk : r = k
    · subst hk
      rw [alookup_aset_self] at hw
      obtain rfl := Option.some_injective _ hw
      exact h0
    · rw [alookup_aset_ne _ k r v hk] at hw
      exact hnn r hr w hw
  · intro w hw
    by_cases hk : ("pressure" : String) = k
    · rw [hk, alookup_aset_self] at hw
      obtain rfl := Option.some_injective _ hw
      exact hcap hk.symm
    · rw [alookup_aset_ne _ k "pressure" v hk] at hw
      exact hcapP w hw

theorem invAux_addResources (s : GState) (hs : InvAux s)
    (ds : List (String × ℚ)) : InvAux (addResources s ds) := by
  have hnl := hs.2.2.2.2.2
  obtain ⟨hnd, hnn, hcapP, hups, hred, _⟩ := hs
  unfold addResources
  rw [hnl]
  refine ⟨nodup_enforce_false _ (nodup_applyDeltas ds _ hnd), ?_, ?_,
    hups, hred, hnl⟩
  · intro r hr v hv
    exact enforce_false_nonneg _ r hr v hv
  · intro v hv
    exact (enforce_false_pressure _ v hv).2

theorem getUpgradeCost_nonneg (s : GState) (hs : InvAux s) (u : String) :
    0 ≤ getUpgradeCost s u := by
  unfold getUpgradeCost
  cases hl : alookup s.upgrades u with
  | none => simp
  | some up =>
      simp only []
      have hb : 0 ≤ up.baseCost := hs.2.2.2.1 (u, up) (alookup_mem _ _ _ hl)
      have h0 : (0 : ℚ) ≤ jfloor (up.baseCost * (3 / 2 : ℚ) ^ up.level) :=
        jfloor_nonneg _ (mul_nonneg hb (zpow_nonneg (by norm_num) _))
      have h1 : (0 : ℚ) ≤ jfloor (up.baseCost * (3 / 2 : ℚ) ^ up.level) *
          s.permanentBonuses.upgradeCostReduction :=
        mul_nonneg h0 hs.2.2.2.2.1
      have h2 : ∀ (l : List ActiveEvent) (c : ℚ), 0 ≤ c →
          0 ≤ l.foldl (fun c event =>
            if event.effect = "cheapUpgrade" ∨ event.effect = "cheapUpgrades"
            then c * (1 / 2) else c) c := by
        intro l
        induction l with
        | nil => intro c hc; exact hc
        | cons e rest ih =>
            intro c hc
            simp only [List.foldl]
            split
            · exact ih _ (mul_nonneg hc (by norm_num))
            · exact ih _ hc
      exact jfloor_nonneg _ (h2 _ _ h1)

theorem invAux_upgradeResource (s : GState) (hs : InvAux s) (u r : String) :
    InvAux (upgradeResource s u r).2 := by
  unfold upgradeResource
  cases hl : alookup s.upgrades u with
  | none => exact hs
  | some up =>
      simp only []
      cases hr : alookup s.resources r with
      | none => exact hs
      | some have_ =>
          simp only []
          split
          · next hcond =>
              have hcost := getUpgradeCost_nonneg s hs u
              obtain ⟨hnd, hnn, hcapP, hups, hred, hnl⟩ := hs
              refine ⟨nodup_aset _ _ _ hnd, ?_, ?_, ?_, hred, hnl⟩
              · intro r' hr' v hv
                by_cases hk : r' = r
                · subst hk
                  rw [alookup_aset_self] at hv
                  obtain rfl := Option.some_injective _ hv
                  linarith [hcond.1]
                · rw [alookup_aset_ne _ r r' _ hk] at hv
                  exact hnn r' hr' v hv
              · intro v hv
                by_cases hk : ("pressure" : String) = r
                · rw [hk, alookup_aset_self] at hv
                  obtain rfl := Option.some_injective _ hv
                  have h100 : have_ ≤ 100 := hcapP have_ (hk ▸ hr)
                  linarith
                · rw [alookup_aset_ne _ r "pressure" _ hk] at hv
                  exact hcapP v hv
              · intro ku hku
                rcases mem_aset _ _ _ _ hku with h1 | h1
                · rw [h1]
                  exact hups (u, up) (alookup_mem _ _ _ hl)
                · exact hups ku h1
          · exact hs

theorem invAux_generateEnergyClick (s : GState) (hs : InvAux s) :
    InvAux (generateEnergyClick s) := by
  unfold generateEnergyClick
  dsimp only
  split
  · next hcond =>
      obtain ⟨hc1, hc2⟩ := hcond
      set r1 := aset s.resources "heat" (agetD s.resources "heat" - 10)
        with hr1
      set r2 := aset r1 "fuel" (agetD r1 "fuel" - 15) with hr2
      set r3 := aset r2 "energy" (agetD r2 "energy" + 40) with hr3
      have h1 : InvAux { s with resources := r1 } :=
        invAux_aset s hs "heat" (agetD s.resources "heat" - 10)
          (by linarith) (fun hk => absurd hk (by decide))
      have hfuel : agetD r1 "fuel" = agetD s.resources "fuel" := by
        rw [hr1]; exact agetD_aset_ne _ _ _ _ (by decide)
      have h2 : InvAux { s with resources := r2 } := by
        rw [hr2]
        exact invAux_aset { s with resources := r1 } h1 "fuel"
          (agetD r1 "fuel" - 15) (by rw [hfuel]; linarith)
          (fun hk => absurd hk (by decide))
      have he0 : 0 ≤ agetD r2 "energy" :=
        agetD_nonneg { s with resources := r2 } h2 "energy" (by decide)
      have h3 : InvAux { s with resources := r3 } := by
        rw [hr3]
        exact invAux_aset { s with resources := r2 } h2 "energy"
          (agetD r2 "energy" + 40) (by linarith)
          (fun hk => absurd hk (by decide))
      have he3 : 0 ≤ agetD r3 "energy" := by
        rw [hr3, agetD_aset_self]; linarith
      exact invAux_aset { s with resources := r3 } h3 "energy"
        (min 200 (agetD r3 "energy")) (le_min (by norm_num) he3)
        (fun hk => absurd hk (by decide))
  · exact hs

theorem invAux_addTemporaryEffect (s : GState) (hs : InvAux s) (t : String)
    (v : ℚ) : InvAux (addTemporaryEffect s t v) := hs

theorem invAux_cutResource (s : GState) (hs : InvAux s) (name : String)
    (hname : name ∈ coreResourceNames) (amt : ℚ) (hamt : 0 ≤ amt) :
    InvAux { s with resources := (aset
      (aset s.resources name (agetD s.resources name - amt)) name
      (max 0 ((alookup (aset s.resources name
        (agetD s.resources name - amt)) name).getD 0))) } := by
  have hkey : (alookup (aset s.resources name
      (agetD s.resources name - amt)) name).getD 0 =
      agetD s.resources name - amt := by
    rw [alookup_aset_self]; rfl
  rw [hkey, aset_aset]
  refine invAux_aset s hs name (max 0 (agetD s.resources name - amt))
    (le_max_left _ _) (fun hk => ?_)
  subst hk
  have h1 := agetD_pressure_le s hs
  exact max_le (by norm_num) (by linarith)

theorem invAux_applyPressureLoss (s : GState) (hs : InvAux s) (value : ℚ)
    (hv : 0 ≤ value) : InvAux (applyPressureLoss s value) := by
  unfold applyPressureLoss
  dsimp only
  exact invAux_cutResource s hs "pressure" (by decide)
    (jfloor (agetD s.resources "pressure" * (value / 100)))
    (jfloor_nonneg _ (mul_nonneg (agetD_nonneg s hs "pressure" (by decide))
      (div_nonneg hv (by norm_num))))

theorem invAux_loseHighestResource (s : GState) (hs : InvAux s) (pct : ℚ)
    (hp : 0 ≤ pct) : InvAux (loseHighestResource s pct) := by
  have key : ∀ name, name ∈ coreResourceNames →
      InvAux { s with resources := (aset
        (aset s.resources name (agetD s.resources name -
          jfloor (agetD s.resources name * (pct / 100)))) name
        (max 0 ((alookup (aset s.resources name (agetD s.resources name -
          jfloor (agetD s.resources name * (pct / 100)))) name).getD 0))) } := by
    intro name hname
    exact invAux_cutResource s hs name hname _
      (jfloor_nonneg _ (mul_nonneg (agetD_nonneg s hs name hname)
        (div_nonneg hp (by norm_num))))
  unfold loseHighestResource
  dsimp only [List.foldl]
  split_ifs <;>
    first
      | exact key "heat" (by decide)
      | exact key "fuel" (by decide)
      | exact key "pressure" (by decide)
      | exact key "energy" (by decide)

set_option maxHeartbeats 1000000 in
theorem invAux_applyEventEffect (s : GState) (hs : InvAux s)
    (effect : String) (ch : Option EventChoice)
    (hcost : ∀ c cost, ch = some c → c.cost = some cost →
      ∃ k a, cost = [(k, a)] ∧ 0 ≤ a)
    (hval : ∀ c v, ch = some c → c.value = some v → 0 ≤ v) :
    InvAux (applyEventEffect s effect ch) := by
  unfold applyEventEffect
  by_cases h1 : effect = "heatBoost"
  · rw [if_pos h1]; exact invAux_addTemporaryEffect s hs _ _
  rw [if_neg h1]
  by_cases h2 : effect = "fuelBoost"
  · rw [if_pos h2]; exact invAux_addTemporaryEffect s hs _ _
  rw [if_neg h2]
  by_cases h3 : effect = "pressureBoost"
  · rw [if_pos h3]; exact invAux_addTemporaryEffect s hs _ _
  rw [if_neg h3]
  by_cases h4 : effect = "allResourceBoost"
  · rw [if_pos h4]; exact invAux_addTemporaryEffect s hs _ _
  rw [if_neg h4]
  by_cases h5 : effect = "solarHarvest"
  · rw [if_pos h5]
    exact invAux_addTemporaryEffect _ (invAux_addTemporaryEffect s hs _ _) _ _
  rw [if_neg h5]
  by_cases h6 : effect = "stabilityProtect"
  · rw [if_pos h6]; exact invAux_addTemporaryEffect s hs _ _
  rw [if_neg h6]
  by_cases h7 : effect = "worldReroll"
  · rw [if_pos h7]; exact hs
  rw [if_neg h7]
  by_cases h8 : effect = "stabilityGain"
  · -- stability += 10 with no cap enforcement
    rw [if_pos h8]
    exact invAux_aset s hs "stability" _
      (by linarith [agetD_nonneg s hs "stability" (by decide)])
      (fun hk => absurd hk (by decide))
  rw [if_neg h8]
  by_cases h9 : effect = "tierUnlock"
  · rw [if_pos h9]; exact hs
  rw [if_neg h9]
  by_cases h10 : effect = "energyGain"
  · -- energy += 25 with no cap enforcement
    rw [if_pos h10]
    exact invAux_aset s hs "energy" _
      (by linarith [agetD_nonneg s hs "energy" (by decide)])
      (fun hk => absurd hk (by decide))
  rw [if_neg h10]
  by_cases h11 : effect = "cheapUpgrade"
  · rw [if_pos h11]; exact invAux_addTemporaryEffect s hs _ _
  rw [if_neg h11]
  by_cases h12 : effect = "resourceChoice"
  · rw [if_pos h12]; exact hs
  rw [if_neg h12]
  by_cases h13 : effect = "cheapUpgrades"
  · rw [if_pos h13]; exact invAux_addTemporaryEffect s hs _ _
  rw [if_neg h13]
  by_cases h14 : effect = "permanentEfficiency"
  · rw [if_pos h14]
    exact ⟨hs.1, hs.2.1, hs.2.2.1, hs.2.2.2.1, hs.2.2.2.2.1, hs.2.2.2.2.2⟩
  rw [if_neg h14]
  by_cases h15 : effect = "energyCost"
  · rw [if_pos h15]
    cases hch : ch with
    | none => exact hs
    | some c =>
        dsimp only
        cases hc : c.cost with
        | none => exact hs
        | some cost =>
            obtain ⟨k, a, rfl, ha⟩ := hcost c cost hch hc
            dsimp only
            split
            · next hafford =>
                have haff : a ≤ agetD s.resources k := by
                  simpa using hafford
                have hp := agetD_pressure_le s hs
                exact invAux_aset s hs k (agetD s.resources k - a)
                  (by linarith) (fun hk => by rw [hk] at haff ⊢; linarith)
            · exact invAux_loseHighestResource s hs 20 (by norm_num)
  rw [if_neg h15]
  by_cases h16 : effect = "heatCost"
  · rw [if_pos h16]
    cases hch : ch with
    | none => exact invAux_applyPressureLoss s hs 50 (by norm_num)
    | some c =>
        dsimp only
        cases hc : c.cost with
        | none => exact invAux_applyPressureLoss s hs 50 (by norm_num)
        | some cost =>
            dsimp only
            split
            · next hguard =>
                exact invAux_aset s hs "heat" _ (by linarith)
                  (fun hk => absurd hk (by decide))
            · exact invAux_applyPressureLoss s hs 50 (by norm_num)
  rw [if_neg h16]
  by_cases h17 : effect = "resourceLoss"
  · rw [if_pos h17]
    cases hch : ch with
    | none => exact hs
    | some c =>
        dsimp only
        cases hc : c.value with
        | none => exact hs
        | some v => exact invAux_loseHighestResource s hs v (hval c v hch hc)
  rw [if_neg h17]
  by_cases h18 : effect = "pressureLoss"
  · rw [if_pos h18]
    cases hch : ch with
    | none => exact hs
    | some c =>
        dsimp only
        cases hc : c.value with
        | none => exact hs
        | some v => exact invAux_applyPressureLoss s hs v (hval c v hch hc)
  rw [if_neg h18]
  by_cases h19 : effect = "overclock"
  · rw [if_pos h19]
    exact invAux_addTemporaryEffect _ (invAux_addTemporaryEffect s hs _ _) _ _
  rw [if_neg h19]
  exact hs

/-- The shape every catalog event choice satisfies: any `cost` is a single
non-negative entry, any `value` is non-negative. -/
def choiceOkB (c : EventChoice) : Bool :=
  (match c.cost with
   | none => true
   | some [(_, a)] => decide (0 ≤ a)
   | some _ => false) &&
  (match c.value with
   | none => true
   | some v => decide (0 ≤ v))

theorem eventDefinitions_choices_ok :
    eventDefinitions.all (fun ev => ev.choices.all choiceOkB) = true := by rfl

theorem choiceOk_of_mem (ev : EventDef) (c : EventChoice)
    (hev : ev ∈ eventDefinitions) (hc : c ∈ ev.choices) :
    choiceOkB c = true :=
  List.all_eq_true.mp
    (List.all_eq_true.mp eventDefinitions_choices_ok ev hev) c hc

theorem choiceOk_cost (c : EventChoice) (h : choiceOkB c = true) :
    ∀ cost, c.cost = some cost → ∃ k a, cost = [(k, a)] ∧ 0 ≤ a := by
  intro cost hc
  unfold choiceOkB at h
  rw [hc] at h
  rcases cost with _ | ⟨⟨k, a⟩, rest⟩
  · simp at h
  · rcases rest with _ | _
    · simp only [Bool.and_eq_true, decide_eq_true_eq] at h
      exact ⟨k, a, rfl, h.1⟩
    · simp at h

theorem choiceOk_value (c : EventChoice) (h : choiceOkB c = true) :
    ∀ v, c.value = some v → 0 ≤ v := by
  intro v hv
  unfold choiceOkB at h
  rw [hv] at h
  simp only [Bool.and_eq_true, decide_eq_true_eq] at h
  exact h.2

theorem invAux_selectEventChoice (clock : ℚ) (s : GState) (hs : InvAux s)
    (ev : EventDef) (ch : EventChoice) (hev : ev ∈ eventDefinitions)
    (hch : ch ∈ ev.choices) :
    InvAux (selectEventChoice clock s ev ch) := by
  have hok := choiceOk_of_mem ev ch hev hch
  have h1 : InvAux (applyEventEffect s ch.effect (some ch)) :=
    invAux_applyEventEffect s hs ch.effect (some ch)
      (fun c cost hc hcost' => by
        obtain rfl : ch = c := Option.some_injective _ hc
        exact choiceOk_cost ch hok cost hcost')
      (fun c v hc hv => by
        obtain rfl : ch = c := Option.some_injective _ hc
        exact choiceOk_value ch hok v hv)
  unfold selectEventChoice
  dsimp only
  split
  · exact ⟨h1.1, h1.2.1, h1.2.2.1, h1.2.2.2.1, h1.2.2.2.2.1, h1.2.2.2.2.2⟩
  · exact ⟨h1.1, h1.2.1, h1.2.2.1, h1.2.2.2.1, h1.2.2.2.2.1, h1.2.2.2.2.2⟩

theorem invAux_updateActiveEvents (s : GState) (hs : InvAux s) :
    InvAux (updateActiveEvents s) :=
  ⟨hs.1, hs.2.1, hs.2.2.1, hs.2.2.2.1, hs.2.2.2.2.1, hs.2.2.2.2.2⟩

/-- checkAchievements only ever appends to the unlocked list: the result is
the input state with `achievements.unlocked` extended by the newly unlocked
ids, which are also exactly the appended tail of the returned list. -/
theorem checkAchAux_shape (clock : ℚ) (defs : List (Nat × AchDef)) :
    ∀ (s : GState) (acc : List Nat), ∃ extra,
      checkAchAux clock defs s acc =
        (acc ++ extra,
         { s with achievements :=
             { unlocked := s.achievements.unlocked ++ extra } }) := by
  induction defs with
  | nil =>
      intro s acc
      exact ⟨[], by simp [checkAchAux]⟩
  | cons da rest ih =>
      intro s acc
      obtain ⟨aid, a⟩ := da
      by_cases hskip : s.achievements.unlocked.contains aid = true
      · obtain ⟨extra, heq⟩ := ih s acc
        refine ⟨extra, ?_⟩
        rw [checkAchAux, if_pos hskip]
        exact heq
      · by_cases hhid : a.hidden = true ∧
            ¬ checkHiddenRequirement s a.requirement = true
        · obtain ⟨extra, heq⟩ := ih s acc
          refine ⟨extra, ?_⟩
          rw [checkAchAux, if_neg hskip, if_pos hhid]
          exact heq
        · by_cases hreq : checkRequirement clock s a.requirement = true
          · obtain ⟨extra, heq⟩ := ih
              { s with achievements :=
                  { unlocked := s.achievements.unlocked ++ [aid] } }
              (acc ++ [aid])
            refine ⟨aid :: extra, ?_⟩
            rw [checkAchAux, if_neg hskip, if_neg hhid, if_pos hreq, heq]
            simp [List.append_assoc]
          · obtain ⟨extra, heq⟩ := ih s acc
            refine ⟨extra, ?_⟩
            rw [checkAchAux, if_neg hskip, if_neg hhid, if_neg hreq]
            exact heq

theorem invAux_checkAchievements (clock : ℚ) (s : GState) (hs : InvAux s) :
    InvAux (checkAchievements clock s).2 := by
  obtain ⟨extra, heq⟩ := checkAchAux_shape clock achievementDefs s []
  unfold checkAchievements
  rw [heq]
  exact ⟨hs.1, hs.2.1, hs.2.2.1, hs.2.2.2.1, hs.2.2.2.2.1, hs.2.2.2.2.2⟩

theorem baseCost_foldFix (l : List (String × Upgrade)) :
    ∀ acc : List (String × Upgrade), (∀ ku ∈ acc, 0 ≤ ku.2.baseCost) →
      (∀ kd ∈ l, 0 ≤ kd.2.baseCost) →
      ∀ ku ∈ l.foldl (fun acc kd =>
          match alookup acc kd.1 with
          | none => aset acc kd.1 kd.2
          | some u => aset acc kd.1 (spreadUpgrade kd.2 u)) acc, 0 ≤ ku.2.baseCost := by
  induction l with
  | nil => intro acc hacc _ ku hku; exact hacc ku hku
  | cons kd rest ih =>
      intro acc hacc hl ku hku
      simp only [List.foldl] at hku
      cases hlk : alookup acc kd.1 with
      | none =>
          rw [hlk] at hku
          refine ih _ (fun x hx => ?_)
            (fun x hx => hl x (List.mem_cons_of_mem _ hx)) ku hku
          rcases mem_aset _ _ _ _ hx with h | h
          · rw [h]; exact hl kd (by simp)
          · exact hacc x h
      | some u =>
          rw [hlk] at hku
          refine ih _ (fun x hx => ?_)
            (fun x hx => hl x (List.mem_cons_of_mem _ hx)) ku hku
          rcases mem_aset _ _ _ _ hx with h | h
          · rw [h]; exact hacc (kd.1, u) (alookup_mem _ _ _ hlk)
          · exact hacc x h

theorem baseCost_fixUpgrades (ups : List (String × Upgrade))
    (h : ∀ ku ∈ ups, 0 ≤ ku.2.baseCost) :
    ∀ ku ∈ fixUpgrades ups, 0 ≤ ku.2.baseCost := by
  unfold fixUpgrades
  exact baseCost_foldFix defaultUpgrades ups h (by decide)

theorem validateAndFixState_fields (clock : ℚ) (s : GState) :
    (validateAndFixState clock s).resources =
        mergeSpread defaultResourcesFive s.resources ∧
      (validateAndFixState clock s).upgrades = fixUpgrades s.upgrades ∧
      (validateAndFixState clock s).permanentBonuses = s.permanentBonuses ∧
      (validateAndFixState clock s).currentWorld = s.currentWorld := by
  unfold validateAndFixState
  dsimp only
  split
  · exact ⟨rfl, rfl, rfl, rfl⟩
  · exact ⟨rfl, rfl, rfl, rfl⟩

theorem invAux_load (cur sb : GState) (hc : InvAux cur) (hb : InvAux sb)
    (clock : ℚ) : InvAux (validateAndFixState clock (mergeLoad cur sb)) := by
  obtain ⟨hres, hups, hpb, hcw⟩ := validateAndFixState_fields clock
    (mergeLoad cur sb)
  have hm : (mergeLoad cur sb).resources =
      mergeSpread cur.resources sb.resources := rfl
  have hmu : (mergeLoad cur sb).upgrades =
      mergeSpread cur.upgrades sb.upgrades := rfl
  have hRnodup : ((mergeSpread cur.resources sb.resources).map
      Prod.fst).Nodup := nodup_mergeSpread _ _ hc.1
  have hlook : ∀ k,
      alookup (mergeSpread defaultResourcesFive
        (mergeSpread cur.resources sb.resources)) k =
      (((alookup sb.resources k).orElse
        (fun _ => alookup cur.resources k)).orElse
        (fun _ => alookup defaultResourcesFive k)) := by
    intro k
    rw [alookup_mergeSpread _ _ _ hRnodup, alookup_mergeSpread _ _ _ hb.1]
  unfold InvAux
  rw [hres, hups, hpb, hcw, hm, hmu]
  refine ⟨nodup_mergeSpread _ _ (by decide), ?_, ?_, ?_, hb.2.2.2.2.1, ?_⟩
  · intro r hr v hv
    rw [hlook r] at hv
    cases h1 : alookup sb.resources r with
    | some w =>
        rw [h1] at hv
        simp only [Option.orElse] at hv
        obtain rfl := Option.some_injective _ hv.symm
        exact hb.2.1 r hr v h1
    | none =>
        rw [h1] at hv
        cases h2 : alookup cur.resources r with
        | some w =>
            rw [h2] at hv
            simp only [Option.orElse] at hv
            obtain rfl := Option.some_injective _ hv.symm
            exact hc.2.1 r hr v h2
        | none =>
            rw [h2] at hv
            simp only [Option.orElse] at hv
            simp only [coreResourceNames, List.mem_cons,
              List.not_mem_nil, or_false] at hr
            rcases hr with rfl | rfl | rfl | rfl | rfl <;>
              (simp [defaultResourcesFive, alookup] at hv; linarith)
  · intro v hv
    rw [hlook "pressure"] at hv
    cases h1 : alookup sb.resources "pressure" with
    | some w =>
        rw [h1] at hv
        simp only [Option.orElse] at hv
        obtain rfl := Option.some_injective _ hv.symm
        exact hb.2.2.1 v h1
    | none =>
        rw [h1] at hv
        cases h2 : alookup cur.resources "pressure" with
        | some w =>
            rw [h2] at hv
            simp only [Option.orElse] at hv
            obtain rfl := Option.some_injective _ hv.symm
            exact hc.2.2.1 v h2
        | none =>
            rw [h2] at hv
            simp only [Option.orElse] at hv
            simp [defaultResourcesFive, alookup] at hv
            linarith
  · exact baseCost_fixUpgrades _ (fun ku hku => by
      rcases mem_mergeSpread _ _ ku hku with h | h
      · exact hc.2.2.2.1 ku h
      · exact hb.2.2.2.1 ku h)
  · show noResourceLimits (mergeLoad cur sb).currentWorld = false
    have hcw2 : (mergeLoad cur sb).currentWorld =
        (match sb.currentWorld with
         | some w => some w
         | none => cur.currentWorld) := rfl
    rw [hcw2]
    cases hw : sb.currentWorld with
    | some w =>
        have h := hb.2.2.2.2.2
        rw [hw] at h
        exact h
    | none => exact hc.2.2.2.2.2

theorem invAux_applyResourceDecay (s : GState) (hs : InvAux s)
    (w : Option World) : InvAux (applyResourceDecay s w) := by
  unfold applyResourceDecay
  dsimp only
  have hp0 := agetD_nonneg s hs "pressure" (by decide)
  have hp1 := agetD_pressure_le s hs
  have h1 : InvAux { s with resources := (aset s.resources "pressure"
      (jfloor (agetD s.resources "pressure" * (95 / 100)))) } := by
    refine invAux_aset s hs _ _
      (jfloor_nonneg _ (mul_nonneg hp0 (by norm_num))) (fun _ => ?_)
    calc jfloor (agetD s.resources "pressure" * (95 / 100)) ≤
        agetD s.resources "pressure" * (95 / 100) := jfloor_le _
      _ ≤ 100 := by linarith
  cases w with
  | none => exact h1
  | some wd =>
      dsimp only
      split
      · exact invAux_aset _ h1 "energy" _ (le_max_left _ _)
          (fun hk => absurd hk (by decide))
      · exact h1

theorem invAux_init : InvAux initState := by
  refine ⟨by decide, ?_, ?_, by decide, by decide, rfl⟩
  · intro r hr v hv
    simp only [coreResourceNames, List.mem_cons, List.not_mem_nil,
      or_false] at hr
    rcases hr with rfl | rfl | rfl | rfl | rfl <;>
      (simp [initState, defaultResourcesFull, alookup] at hv; linarith)
  · intro v hv
    simp [initState, defaultResourcesFull, alookup] at hv
    linarith

theorem machInv_step (m m' : Machine) (h : Step m m') (hm : MachInv m) :
    MachInv m' := by
  cases h with
  | generate ds => exact ⟨invAux_addResources _ hm.1 ds, hm.2⟩
  | purchase u r => exact ⟨invAux_upgradeResource _ hm.1 u r, hm.2⟩
  | clickEnergy => exact ⟨invAux_generateEnergyClick _ hm.1, hm.2⟩
  | decay w => exact ⟨invAux_applyResourceDecay _ hm.1 w, hm.2⟩
  | eventChoice clock ev ch hev hch =>
      exact ⟨invAux_selectEventChoice clock _ hm.1 ev ch hev hch, hm.2⟩
  | tick => exact ⟨invAux_updateActiveEvents _ hm.1, hm.2⟩
  | achCheck clock => exact ⟨invAux_checkAchievements clock _ hm.1, hm.2⟩
  | save =>
      refine ⟨hm.1, fun sb hsb => ?_⟩
      obtain rfl : m.game = sb := Option.some_injective _ hsb
      exact hm.1
  | load sb clock hs =>
      refine ⟨?_, hm.2⟩
      by_cases hv : validStateForSave sb = true
      · rw [if_pos hv]
        exact invAux_load m.game sb hm.1 (hm.2 sb hs) clock
      · rw [if_neg hv]
        exact hm.1

theorem machInv_reachable (m : Machine) (h : Reachable m) : MachInv m := by
  induction h with
  | refl =>
      refine ⟨invAux_init, fun sb hsb => ?_⟩
      simp [initMachine] at hsb
  | tail hstep hlast ih => exact machInv_step _ _ hlast ih

/-! ## Claim C1 -/

/-- The Quantum Fluctuation catalog event (EventSystem.eventDefinitions)
and its "Stay Grounded" choice, whose `stabilityGain` effect adds 10
stability without cap enforcement. -/
def qfEvent : EventDef :=
  { name := "Quantum Fluctuation", rarity := "uncommon", duration := 2,
    choices :=
      [{ text := "Embrace Chaos", effect := "worldReroll", cost := none,
         value := none },
       { text := "Stay Grounded", effect := "stabilityGain", cost := none,
         value := none }] }

/-- The "Stay Grounded" choice of `qfEvent`. -/
def qfStayGrounded : EventChoice :=
  { text := "Stay Grounded", effect := "stabilityGain", cost := none,
    value := none }

/-- One machine step that rolls `qfEvent` and picks "Stay Grounded". -/
def stabilityChoiceStep (m : Machine) : Machine :=
  { m with game := selectEventChoice 0 m.game qfEvent qfStayGrounded }

/-- Six consecutive Stay-Grounded event choices from the fresh state. -/
def c1BreakMachine : Machine :=
  stabilityChoiceStep (stabilityChoiceStep (stabilityChoiceStep
    (stabilityChoiceStep (stabilityChoiceStep
      (stabilityChoiceStep initMachine)))))

theorem stabilityChoiceStep_isStep (m : Machine) :
    Step m (stabilityChoiceStep m) :=
  Step.eventChoice m 0 qfEvent qfStayGrounded (by decide) (by decide)

theorem c1BreakMachine_reachable : Reachable c1BreakMachine :=
  Relation.ReflTransGen.tail (Relation.ReflTransGen.tail
    (Relation.ReflTransGen.tail (Relation.ReflTransGen.tail
      (Relation.ReflTransGen.tail (Relation.ReflTransGen.tail
        Relation.ReflTransGen.refl
        (stabilityChoiceStep_isStep initMachine))
        (stabilityChoiceStep_isStep _))
      (stabilityChoiceStep_isStep _))
    (stabilityChoiceStep_isStep _))
    (stabilityChoiceStep_isStep _))
    (stabilityChoiceStep_isStep _)

/-- One Stay-Grounded choice rewrites only the stability entry, adding 10
to it (the other fields of `selectEventChoice` touch the event history and
the active-event list). -/
theorem stabilityChoiceStep_resources (m : Machine) :
    (stabilityChoiceStep m).game.resources =
      aset m.game.resources "stability"
        (agetD m.game.resources "stability" + 10) := rfl

theorem stabilityChoiceStep_agetD (m : Machine) (x : ℚ)
    (hx : agetD m.game.resources "stability" = x) :
    agetD (stabilityChoiceStep m).game.resources "stability" = x + 10 := by
  rw [stabilityChoiceStep_resources, agetD_aset_self, hx]

theorem c1BreakMachine_stability :
    alookup c1BreakMachine.game.resources "stability" = some 60 := by
  have h0 : agetD initMachine.game.resources "stability" = 0 := rfl
  have h5 : agetD (stabilityChoiceStep (stabilityChoiceStep
      (stabilityChoiceStep (stabilityChoiceStep
        (stabilityChoiceStep initMachine))))).game.resources "stability" =
      50 := by
    have h := stabilityChoiceStep_agetD _ _ (stabilityChoiceStep_agetD _ _
      (stabilityChoiceStep_agetD _ _ (stabilityChoiceStep_agetD _ _
        (stabilityChoiceStep_agetD _ _ h0))))
    norm_num at h
    exact h
  have h6 : alookup c1BreakMachine.game.resources "stability" =
      some (50 + 10) := by
    show alookup (stabilityChoiceStep _).game.resources "stability" = _
    rw [stabilityChoiceStep_resources, alookup_aset_self, h5]
  rw [h6]
  norm_num

/-- C1 counterexample: the spec's resource invariant fails on a reachable
state.  Six Quantum-Fluctuation "Stay Grounded" choices from the fresh
state leave stability at 60, above its cap of 50, because the
`stabilityGain` event effect mutates the resource directly without running
enforceResourceCaps. -/
theorem c1_claimed_invariant_fails :
    ¬ (∀ m : Machine, Reachable m → ClaimedInvariant m.game) := by
  intro hclaim
  have hinv := hclaim c1BreakMachine c1BreakMachine_reachable
  have hno : noResourceLimits c1BreakMachine.game.currentWorld = false := rfl
  have hle := hinv.2.2.2 60 c1BreakMachine_stability
  rw [hno] at hle
  norm_num at hle

/-- C1 (amended): in every reachable state the five core resources are
non-negative and pressure is at or below its cap of 100; energy and
stability, however, can be pushed above their caps (200/50) by the
`energyGain` (+25 energy) and `stabilityGain` (+10 stability) event-choice
effects, which mutate resources directly without cap enforcement. -/
theorem c1_core_resource_invariant (m : Machine) (h : Reachable m) :
    CoreInvariant m.game := by
  have hm := machInv_reachable m h
  exact ⟨hm.1.2.1, hm.1.2.2.1⟩

/-- A one-step machine used as the C1 witness input. -/
def c1WitnessMachine : Machine :=
  { game := addResources initState [("pressure", 5000)], saved := none }

theorem c1_core_resource_invariant_witness :
    CoreInvariant c1WitnessMachine.game :=
  c1_core_resource_invariant c1WitnessMachine
    (Relation.ReflTransGen.tail Relation.ReflTransGen.refl
      (Step.generate initMachine [("pressure", 5000)]))

/-- The cheap-upgrade event fold in getUpgradeCost is the identity when no
active event has effect cheapUpgrade or cheapUpgrades. -/
theorem foldl_cheap_id (l : List ActiveEvent) (cost : ℚ)
    (h : ∀ e ∈ l, e.effect ≠ "cheapUpgrade" ∧ e.effect ≠ "cheapUpgrades") :
    l.foldl
      (fun c event =>
        if event.effect = "cheapUpgrade" ∨ event.effect = "cheapUpgrades"
        then c * (1 / 2) else c)
      cost = cost := by
  induction l generalizing cost with
  | nil => rfl
  | cons e t ih =>
      have he := h e (List.mem_cons_self e t)
      simp only [List.foldl_cons, he.1, he.2, or_self, if_false]
      exact ih cost fun x hx => h x (List.mem_cons_of_mem e hx)

/-- Flooring an already-floored rational is the identity. -/
theorem jfloor_jfloor (q : ℚ) : jfloor (jfloor q) = jfloor q := by
  simp [jfloor, Int.floor_intCast]

/-- With upgradeCostReduction = 1 and no cheap-upgrade events active,
getUpgradeCost is exactly floor(baseCost * 1.5 ^ level). -/
theorem getUpgradeCost_formula (s : GState) (u : String) (up : Upgrade)
    (hu : alookup s.upgrades u = some up)
    (hred : s.permanentBonuses.upgradeCostReduction = 1)
    (hev : ∀ e ∈ s.activeEvents,
        e.effect ≠ "cheapUpgrade" ∧ e.effect ≠ "cheapUpgrades") :
    getUpgradeCost s u = jfloor (up.baseCost * (3 / 2 : ℚ) ^ up.level) := by
  unfold getUpgradeCost
  rw [hu]
  dsimp only
  rw [hred, mul_one, foldl_cheap_id _ _ hev, jfloor_jfloor]

/-- Explicit success equation for upgradeResource. -/
theorem upgradeResource_success (s : GState) (u r : String) (up : Upgrade)
    (have_ : ℚ) (hu : alookup s.upgrades u = some up)
    (hr : alookup s.resources r = some have_)
    (hcost : getUpgradeCost s u ≤ have_) (hlvl : up.level < up.maxLevel) :
    upgradeResource s u r =
      (true,
       { s with
           resources := aset s.resources r (have_ - getUpgradeCost s u),
           upgrades := aset s.upgrades u
             { up with level := up.level + 1 } }) := by
  unfold upgradeResource
  rw [hu]
  dsimp only
  rw [hr]
  dsimp only
  rw [if_pos ⟨hcost, hlvl⟩]

/-! ## Claim C2 -/

/-- C2: upgradeResource succeeds exactly when the paying resource covers
getUpgradeCost and the upgrade is below maxLevel; success deducts exactly
the cost and increments the level by exactly 1; any failure (including a
maxed upgrade) returns false and leaves the whole state unchanged; and
0 ≤ level ≤ maxLevel is preserved by every purchase attempt. -/
theorem c2_upgradeResource_correct (s : GState) (u r : String)
    (up : Upgrade) (hu : alookup s.upgrades u = some up) :
    ((upgradeResource s u r).1 = true ↔
      (jsGeU (alookup s.resources r) (getUpgradeCost s u) = true ∧
        up.level < up.maxLevel)) ∧
    ((upgradeResource s u r).1 = true →
      ∃ have_, alookup s.resources r = some have_ ∧
        (upgradeResource s u r).2 =
          { s with
              resources := aset s.resources r (have_ - getUpgradeCost s u),
              upgrades := aset s.upgrades u
                { up with level := up.level + 1 } }) ∧
    ((upgradeResource s u r).1 = false → (upgradeResource s u r).2 = s) ∧
    (0 ≤ up.level → up.level ≤ up.maxLevel →
      ∀ up', alookup (upgradeResource s u r).2.upgrades u = some up' →
        0 ≤ up'.level ∧ up'.level ≤ up'.maxLevel) := by
  unfold upgradeResource
  rw [hu]
  cases hr : alookup s.resources r with
  | none =>
      refine ⟨by simp [jsGeU], by simp, fun _ => rfl, fun h0 h1 up' hup' => ?_⟩
      rw [hu] at hup'
      obtain rfl := Option.some_injective _ hup'
      exact ⟨h0, h1⟩
  | some have_ =>
      dsimp only
      split
      · next hcond =>
          refine ⟨?_, ?_, ?_, ?_⟩
          · constructor
            · intro _
              exact ⟨by simp [jsGeU, hcond.1], hcond.2⟩
            · intro _
              rfl
          · intro _
            exact ⟨have_, rfl, rfl⟩
          · intro hfalse
            simp at hfalse
          · intro h0 h1 up' hup'
            dsimp only at hup'
            rw [alookup_aset_self] at hup'
            obtain rfl := Option.some_injective _ hup'
            constructor
            · simp only []
              omega
            · simp only []
              omega
      · next hcond =>
          refine ⟨?_, ?_, fun _ => rfl, ?_⟩
          · constructor
            · intro hfalse
              simp at hfalse
            · intro hand
              refine absurd (And.intro ?_ hand.2) hcond
              have := hand.1
              simpa [jsGeU] using this
          · intro htrue
            simp at htrue
          · intro h0 h1 up' hup'
            dsimp only at hup'
            rw [hu] at hup'
            obtain rfl := Option.some_injective _ hup'
            exact ⟨h0, h1⟩

theorem c2_upgradeResource_correct_witness :
    (upgradeResource initState "heatGenerator" "shadow").2 = initState :=
  (c2_upgradeResource_correct initState "heatGenerator" "shadow"
    { level := 0, maxLevel := 10, baseCost := 10, unlocked := none,
      requiresHeat := none, requiresPressure := none, requiresFuel := none,
      requiresEnergy := none, requiresStability := none }
    (by decide)).2.2.1 (by decide)

/-! ## Claim C5 -/

/-- The heatGenerator upgrade definition at level 0 (entry of
defaultUpgrades). -/
def c5hg0 : Upgrade :=
  { level := 0, maxLevel := 10, baseCost := 10, unlocked := none,
    requiresHeat := none, requiresPressure := none, requiresFuel := none,
    requiresEnergy := none, requiresStability := none }

/-- A fresh state whose heat has been set to 10 (Scenario C setup). -/
def c5State : GState :=
  { initState with resources := aset initState.resources "heat" 10 }

/-- C5: with upgradeCostReduction = 1 and no cheapUpgrade/cheapUpgrades
event active, the purchase cost is floor(baseCost * 1.5 ^ level); and
concretely heatGenerator at level 0 with baseCost 10 costs 10, purchasing
it with heat = 10 succeeds, raises the level to 1, drops heat to 0, and
makes the next cost 15. -/
theorem c5_cost_curve (s : GState) (u : String) (up : Upgrade)
    (hu : alookup s.upgrades u = some up)
    (hred : s.permanentBonuses.upgradeCostReduction = 1)
    (hev : ∀ e ∈ s.activeEvents,
        e.effect ≠ "cheapUpgrade" ∧ e.effect ≠ "cheapUpgrades") :
    getUpgradeCost s u = jfloor (up.baseCost * (3 / 2 : ℚ) ^ up.level) ∧
    getUpgradeCost c5State "heatGenerator" = 10 ∧
    (upgradeResource c5State "heatGenerator" "heat").1 = true ∧
    alookup (upgradeResource c5State "heatGenerator" "heat").2.upgrades
        "heatGenerator" =
      some { c5hg0 with level := 1 } ∧
    alookup (upgradeResource c5State "heatGenerator" "heat").2.resources
        "heat" = some 0 ∧
    getUpgradeCost (upgradeResource c5State "heatGenerator" "heat").2
        "heatGenerator" = 15 := by
  have hformula := getUpgradeCost_formula s u up hu hred hev
  have hnoev : ∀ e ∈ c5State.activeEvents,
      e.effect ≠ "cheapUpgrade" ∧ e.effect ≠ "cheapUpgrades" := by
    intro e he
    simp [c5State, initState] at he
  have h10 : getUpgradeCost c5State "heatGenerator" = 10 := by
    rw [getUpgradeCost_formula c5State "heatGenerator" c5hg0 rfl rfl hnoev]
    norm_num [jfloor, c5hg0]
  have hstep := upgradeResource_success c5State "heatGenerator" "heat"
    c5hg0 10 rfl rfl h10.le (by decide)
  refine ⟨hformula, h10, ?_, ?_, ?_, ?_⟩
  · rw [hstep]
  · rw [hstep]
    dsimp only
    rw [alookup_aset_self]
    decide
  · rw [hstep]
    dsimp only
    rw [alookup_aset_self, h10]
    norm_num
  · rw [hstep]
    dsimp only
    have hu1 : alookup
        (aset c5State.upgrades "heatGenerator" { c5hg0 with level := c5hg0.level + 1 })
        "heatGenerator" = some { c5hg0 with level := c5hg0.level + 1 } :=
      alookup_aset_self _ _ _
    rw [getUpgradeCost_formula _ "heatGenerator" _ hu1 rfl ?_]
    · norm_num [jfloor, c5hg0]
    · intro e he
      simp [c5State, initState] at he

theorem c5_cost_curve_witness :
    getUpgradeCost initState "heatGenerator" =
      jfloor ((10 : ℚ) * (3 / 2 : ℚ) ^ (0 : ℤ)) :=
  (c5_cost_curve initState "heatGenerator" c5hg0 rfl rfl
    (by intro e he; simp [initState] at he)).1

/-! ## Claim C6 -/

/-- selectWorld never modifies the unlockedWorlds list: an unlocked world
stays unlocked. -/
theorem selectWorld_unlockedWorlds (s : GState) (wid : Nat) :
    (selectWorld s wid).2.unlockedWorlds = s.unlockedWorlds := by
  unfold selectWorld
  cases getWorldById wid with
  | none => rfl
  | some w =>
      dsimp only
      by_cases h : wid ∈ s.unlockedWorlds
      · rw [if_pos h]
        dsimp only
        by_cases h2 : s.worldProgress < wid
        · rw [if_pos h2]
        · rw [if_neg h2]
      · rw [if_neg h]

/-- A fresh state with heat 50, fuel 25 and Ocean Planet (id 1) unlocked
(Scenario B setup). -/
def c6State : GState :=
  { initState with
      resources := aset (aset initState.resources "heat" 50) "fuel" 25,
      unlockedWorlds := [0, 1] }

/-- C6: on a fresh all-zero state canUnlockWorld 0 (Desert, no
requirements) is true and canUnlockWorld 1 (Ocean, heat ≥ 50 and
fuel ≥ 25) is false; with heat = 50, fuel = 25 and Ocean unlocked,
selecting world 1 succeeds, deducts the unlock cost exactly once (heat and
fuel both become 0), increments worldsCreated to 1 and installs Ocean
Planet as the current world; selectWorld never shrinks unlockedWorlds, so
Ocean stays unlocked afterwards. -/
theorem c6_world_unlock_select :
    canUnlockWorld initState 0 = true ∧
    canUnlockWorld initState 1 = false ∧
    (selectWorld c6State 1).1 = true ∧
    alookup (selectWorld c6State 1).2.resources "heat" = some 0 ∧
    alookup (selectWorld c6State 1).2.resources "fuel" = some 0 ∧
    (selectWorld c6State 1).2.worldsCreated = 1 ∧
    (selectWorld c6State 1).2.currentWorld = getWorldById 1 ∧
    (getWorldById 1).map World.name = some "Ocean Planet" ∧
    (∀ (s : GState) (wid : Nat),
        (selectWorld s wid).2.unlockedWorlds = s.unlockedWorlds) ∧
    1 ∈ (selectWorld c6State 1).2.unlockedWorlds := by
  refine ⟨by decide, by decide, by decide, ?_, ?_, by decide, rfl,
    by decide, selectWorld_unlockedWorlds, by decide⟩
  · have h : alookup (selectWorld c6State 1).2.resources "heat"
        = some ((50 : ℚ) - 50) := rfl
    rw [h]
    norm_num
  · have h : alookup (selectWorld c6State 1).2.resources "fuel"
        = some ((25 : ℚ) - 25) := rfl
    rw [h]
    norm_num

/-! ## Claim C7 -/

/-- C7: in a single Chaotic-weather generation, one variance (in
[25%, 75%)) and one direction (−1 exactly when the second draw is below
1/2, else +1) are drawn once, and the same factor 1 + variance * direction
multiplies both the heat gain and the fuel gain — for every pair of random
draws the two resources move together. -/
theorem c7_chaotic_single_roll (r1 r2 heatGain fuelGain : ℚ)
    (h0 : 0 ≤ r1) (h1 : r1 < 1) :
    ∃ variance direction : ℚ,
      ((1 : ℚ) / 4 ≤ variance ∧ variance < 3 / 4) ∧
      (direction = -1 ∨ direction = 1) ∧
      (direction = -1 ↔ r2 < 1 / 2) ∧
      applyWeatherStage "Chaotic" r1 r2 heatGain fuelGain =
        (heatGain * (1 + variance * direction),
         fuelGain * (1 + variance * direction)) := by
  refine ⟨1 / 4 + r1 * (1 / 2), if r2 < 1 / 2 then -1 else 1,
    ⟨by linarith, by linarith⟩, ?_, ?_, ?_⟩
  · by_cases h : r2 < 1 / 2
    · left
      rw [if_pos h]
    · right
      rw [if_neg h]
  · by_cases h : r2 < 1 / 2
    · rw [if_pos h]
      exact iff_of_true rfl h
    · rw [if_neg h]
      constructor
      · intro hc
        norm_num at hc
      · intro hc
        exact absurd hc h
  · unfold applyWeatherStage
    rw [if_neg (by decide), if_neg (by decide), if_pos rfl]

theorem c7_chaotic_single_roll_witness :
    ∃ variance direction : ℚ,
      ((1 : ℚ) / 4 ≤ variance ∧ variance < 3 / 4) ∧
      (direction = -1 ∨ direction = 1) ∧
      (direction = -1 ↔ (0 : ℚ) < 1 / 2) ∧
      applyWeatherStage "Chaotic" 0 0 1 1 =
        (1 * (1 + variance * direction), 1 * (1 + variance * direction)) :=
  c7_chaotic_single_roll 0 0 1 1 (le_refl 0) (by decide)

/-! ## Claim C8 -/

/-- The filterMap of updateActiveEvents decomposes as: decrement every
duration by 1, then keep exactly the events whose duration is still
positive. -/
theorem filterMap_decrement (l : List ActiveEvent) :
    l.filterMap
      (fun event =>
        let event' := { event with duration := event.duration - 1 }
        if 0 < event'.duration then some event' else none) =
    (l.map (fun e => { e with duration := e.duration - 1 })).filter
      (fun e => decide (0 < e.duration)) := by
  induction l with
  | nil => rfl
  | cons e t ih =>
      simp only [List.filterMap_cons, List.map_cons, List.filter_cons]
      dsimp only
      by_cases h : 0 < e.duration - 1
      · rw [if_pos h, ih]
        simp [h]
      · rw [if_neg h, ih]
        simp [h]

/-- The permanentEfficiency branch of applyEventEffect: a one-shot +5%
into permanentBonuses.resourceEfficiency, touching nothing else. -/
theorem applyEventEffect_permEff (s : GState) (choice : Option EventChoice) :
    applyEventEffect s "permanentEfficiency" choice =
      { s with permanentBonuses :=
          { s.permanentBonuses with resourceEfficiency :=
              s.permanentBonuses.resourceEfficiency + 1/20 } } := by
  unfold applyEventEffect
  rw [if_neg (by decide), if_neg (by decide), if_neg (by decide),
    if_neg (by decide), if_neg (by decide), if_neg (by decide),
    if_neg (by decide), if_neg (by decide), if_neg (by decide),
    if_neg (by decide), if_neg (by decide), if_neg (by decide),
    if_neg (by decide), if_pos rfl]

/-- The Crystal Resonance catalog entry (eventDefinitions index 7). -/
def c8crystal : EventDef :=
  { name := "Crystal Resonance", rarity := "ultraRare", duration := -1,
    choices :=
      [{ text := "Embrace Resonance", effect := "permanentEfficiency",
         cost := none, value := none },
       { text := "Ignore", effect := "none", cost := none, value := none }] }

/-- C8: one updateActiveEvents call decrements every active event's
duration by exactly 1 and keeps exactly those whose new duration is still
positive; selectEventChoice never appends an active event when the event's
duration is ≤ 0; and the permanent Crystal Resonance reward (sentinel
duration −1, effect permanentEfficiency) leaves the active-events list
unchanged and adds its +5% bonus once into
permanentBonuses.resourceEfficiency. -/
theorem c8_event_duration_lifecycle :
    (∀ s : GState, (updateActiveEvents s).activeEvents =
      (s.activeEvents.map (fun e => { e with duration := e.duration - 1 })).filter
        (fun e => decide (0 < e.duration))) ∧
    (∀ (clock : ℚ) (s : GState) (event : EventDef) (choice : EventChoice),
        event.duration ≤ 0 →
        (selectEventChoice clock s event choice).activeEvents =
          (applyEventEffect s choice.effect (some choice)).activeEvents) ∧
    (∃ cr ∈ eventDefinitions, cr.name = "Crystal Resonance" ∧
      cr.duration = -1 ∧
      ∀ (clock : ℚ) (s : GState) (choice : EventChoice),
        choice.effect = "permanentEfficiency" →
        (selectEventChoice clock s cr choice).activeEvents = s.activeEvents ∧
        (selectEventChoice clock s cr choice).permanentBonuses.resourceEfficiency
          = s.permanentBonuses.resourceEfficiency + 1/20) := by
  refine ⟨?_, ?_, ?_⟩
  · intro s
    unfold updateActiveEvents
    exact filterMap_decrement s.activeEvents
  · intro clock s event choice h
    unfold selectEventChoice
    dsimp only
    rw [if_neg (not_lt.mpr h)]
  · refine ⟨c8crystal, by decide, rfl, rfl, ?_⟩
    intro clock s choice heff
    unfold selectEventChoice
    dsimp only
    rw [heff, applyEventEffect_permEff, if_neg (by decide)]
    exact ⟨rfl, rfl⟩

/-! ## Claim C10 -/

/-- applyDeltas leaves alone every key that the delta object does not
mention. -/
theorem alookup_applyDeltas_notmem (ds : List (String × ℚ))
    (res : List (String × ℚ)) (k : String) (h : k ∉ ds.map Prod.fst) :
    alookup (applyDeltas res ds) k = alookup res k := by
  induction ds generalizing res with
  | nil => rfl
  | cons d rest ih =>
      obtain ⟨k1, v1⟩ := d
      have hk1 : k ≠ k1 := by
        intro he
        exact h (by rw [he]; exact List.mem_cons_self _ _)
      have hrest : k ∉ rest.map Prod.fst := by
        intro hm
        exact h (List.mem_cons_of_mem _ hm)
      dsimp only [applyDeltas]
      cases h0 : alookup res k1 with
      | none =>
          rw [ih _ hrest, alookup_aset_ne _ _ _ _ hk1]
      | some v0 =>
          rw [ih _ hrest, alookup_aset_ne _ _ _ _ hk1]

/-- applyDeltas on a delta object with pairwise-distinct keys: a delta for
an existing resource increments it, a delta for an unknown resource
creates it at the delta value. -/
theorem alookup_applyDeltas_mem (ds : List (String × ℚ))
    (res : List (String × ℚ)) (k : String) (v : ℚ)
    (hnd : (ds.map Prod.fst).Nodup) (hmem : (k, v) ∈ ds) :
    alookup (applyDeltas res ds) k =
      some (match alookup res k with | none => v | some v0 => v0 + v) := by
  induction ds generalizing res with
  | nil => exact absurd hmem (List.not_mem_nil _)
  | cons d rest ih =>
      obtain ⟨k1, v1⟩ := d
      have hnd' := List.nodup_cons.mp hnd
      rcases List.mem_cons.mp hmem with heq | hrest
      · obtain ⟨rfl, rfl⟩ := Prod.mk.injEq .. ▸ heq
        dsimp only [applyDeltas]
        rw [alookup_applyDeltas_notmem _ _ _ hnd'.1]
        cases h0 : alookup res k with
        | none => exact alookup_aset_self _ _ _
        | some v0 => exact alookup_aset_self _ _ _
      · have hk1 : k ≠ k1 := by
          intro he
          apply hnd'.1
          show k1 ∈ rest.map Prod.fst
          exact he ▸ List.mem_map_of_mem Prod.fst hrest
        dsimp only [applyDeltas]
        cases h0 : alookup res k1 with
        | none =>
            rw [ih _ hnd'.2 hrest, alookup_aset_ne _ _ _ _ hk1]
        | some v0 =>
            rw [ih _ hnd'.2 hrest, alookup_aset_ne _ _ _ _ hk1]

/-- Cap enforcement touches only the five resources of the caps table. -/
theorem alookup_enforce_notfive (nl : Bool) (res : List (String × ℚ))
    (k : String)
    (h : k ∉ (["heat", "fuel", "pressure", "energy", "stability"] :
      List String)) :
    alookup (enforceResourceCaps nl res) k = alookup res k := by
  have h1 : k ≠ "heat" := fun he => h (by rw [he]; decide)
  have h2 : k ≠ "fuel" := fun he => h (by rw [he]; decide)
  have h3 : k ≠ "pressure" := fun he => h (by rw [he]; decide)
  have h4 : k ≠ "energy" := fun he => h (by rw [he]; decide)
  have h5 : k ≠ "stability" := fun he => h (by rw [he]; decide)
  unfold enforceResourceCaps capsFor
  dsimp only [List.foldl]
  rw [alookup_clampKey_ne _ _ _ _ h5, alookup_clampKey_ne _ _ _ _ h4,
    alookup_clampKey_ne _ _ _ _ h3, alookup_clampKey_ne _ _ _ _ h2,
    alookup_clampKey_ne _ _ _ _ h1]

/-- C10: addResources accepts every delta key: a key naming a resource not
in state.resources is silently created at its delta value, an existing
resource is incremented by its delta, and cap enforcement rewrites only
the five known capped resources, so a dynamically created resource is
never clamped (its delta value survives verbatim, even negative). -/
theorem c10_addResources_dynamic (s : GState) (deltas : List (String × ℚ))
    (k : String) (v : ℚ) (hnd : (deltas.map Prod.fst).Nodup)
    (hmem : (k, v) ∈ deltas)
    (hk : k ∉ (["heat", "fuel", "pressure", "energy", "stability"] :
      List String)) :
    (alookup s.resources k = none →
      alookup (addResources s deltas).resources k = some v) ∧
    (∀ v0, alookup s.resources k = some v0 →
      alookup (addResources s deltas).resources k = some (v0 + v)) ∧
    (∀ (nl : Bool) (res : List (String × ℚ)) (k2 : String),
        k2 ∉ (["heat", "fuel", "pressure", "energy", "stability"] :
          List String) →
        alookup (enforceResourceCaps nl res) k2 = alookup res k2) := by
  refine ⟨?_, ?_, fun nl res k2 hk2 => alookup_enforce_notfive nl res k2 hk2⟩
  · intro h0
    unfold addResources
    dsimp only
    rw [alookup_enforce_notfive _ _ _ hk,
      alookup_applyDeltas_mem deltas s.resources k v hnd hmem, h0]
  · intro v0 h0
    unfold addResources
    dsimp only
    rw [alookup_enforce_notfive _ _ _ hk,
      alookup_applyDeltas_mem deltas s.resources k v hnd hmem, h0]

theorem c10_addResources_dynamic_witness :
    alookup (addResources initState [("shadowMatter", -5)]).resources
      "shadowMatter" = some (-5) :=
  (c10_addResources_dynamic initState [("shadowMatter", -5)] "shadowMatter"
    (-5) (by decide) (by decide) (by decide)).1 rfl

/-! ## Claim C9 -/

/-- A state with 24 achievements already unlocked (ids 1-16, 18-24 and 37)
and one week of playtime, so that the playtime achievement 49 is due. -/
def c9State : GState :=
  { initState with
      resources := [],
      upgrades := [],
      achievements :=
        { unlocked := [1, 2, 3, 4, 5, 6, 7, 8, 9, 10, 11, 12, 13, 14, 15,
            16, 18, 19, 20, 21, 22, 23, 24, 37] },
      playtime := 604800,
      gameStartTime := 1 }

/-- C9 counterexample: from c9State the first checkAchievements call
unlocks exactly the playtime achievement 49 (reaching 25 unlocked), and
the second call with no intervening state change unlocks the count-based
achievement 40 ("Achievement Hunter", 25 achievements) — the second call's
newly-unlocked list is not empty and the unlocked set differs after the
two calls. -/
theorem c9_idempotence_counterexample :
    (checkAchievements 0 c9State).1 = [49] ∧
    (checkAchievements 0 (checkAchievements 0 c9State).2).1 = [40] ∧
    ¬ ((checkAchievements 0 (checkAchievements 0 c9State).2).2.achievements.unlocked
        = (checkAchievements 0 c9State).2.achievements.unlocked) := by
  decide

/-- C9 (amended): checkAchievements is monotonic — it returns exactly the
ids it appends to the unlocked set, every previously unlocked achievement
stays unlocked (already-unlocked ids are skipped, never removed) — and a
call that unlocks nothing leaves the state unchanged, making the next
call identical; but full idempotence fails (see the counterexample): a
call that does unlock can enable count-based achievements on the next
call. -/
theorem c9_achievements_monotonic (clock : ℚ) (s : GState) :
    ∃ extra,
      checkAchievements clock s =
        (extra,
         { s with achievements :=
             { unlocked := s.achievements.unlocked ++ extra } }) ∧
      (∀ aid ∈ s.achievements.unlocked,
        aid ∈ (checkAchievements clock s).2.achievements.unlocked) ∧
      ((checkAchievements clock s).1 = [] →
        checkAchievements clock (checkAchievements clock s).2 =
          checkAchievements clock s) := by
  obtain ⟨extra, heq⟩ := checkAchAux_shape clock achievementDefs s []
  have hmain : checkAchievements clock s =
      (extra,
       { s with achievements :=
           { unlocked := s.achievements.unlocked ++ extra } }) := by
    unfold checkAchievements
    rw [heq]
    rfl
  refine ⟨extra, hmain, ?_, ?_⟩
  · intro aid hmem
    rw [hmain]
    exact List.mem_append_left _ hmem
  · intro hempty
    have hextra : extra = [] := by
      rw [hmain] at hempty
      exact hempty
    subst hextra
    have h2 : (checkAchievements clock s).2 = s := by
      rw [hmain]
      show { s with achievements :=
          { unlocked := s.achievements.unlocked ++ [] } } = s
      rw [List.append_nil]
    rw [h2]

/-! ## Claim C3 -/

/-- Everything a save blob must satisfy for validateSaveData to accept
it (read off the if-chain).  Note the worldsCreated conjunct is only
validWorldsCreatedVal: no finiteness. -/
theorem validateSaveData_spec (v : JSVal) (h : validateSaveData v = true) :
    (jsTruthy v ∧ jsIsObjectType v) ∧
    (jsHasProp v "worldsCreated" ∧ jsHasProp v "resources" ∧
      jsHasProp v "upgrades") ∧
    validWorldsCreatedVal (jsGet v "worldsCreated") = true ∧
    (jsTruthy (jsGet v "resources") ∧ jsIsObjectType (jsGet v "resources")) ∧
    (∀ r ∈ coreResourceNames,
      (match jsGet (jsGet v "resources") r with
       | .undefV => true
       | w => validNumberVal w) = true) ∧
    (∀ kv ∈ jsEntries (jsGet v "upgrades"),
      (if jsTruthy kv.2 ∧ jsIsObjectType kv.2 then
        (match jsGet kv.2 "level" with
         | .undefV => true
         | w => validNumberVal w)
       else true) = true) := by
  unfold validateSaveData at h
  by_cases h1 : ¬ (jsTruthy v ∧ jsIsObjectType v)
  · rw [if_pos h1] at h
    exact absurd h (by decide)
  · rw [if_neg h1] at h
    by_cases h2 : ¬ (jsHasProp v "worldsCreated" ∧ jsHasProp v "resources" ∧
        jsHasProp v "upgrades")
    · rw [if_pos h2] at h
      exact absurd h (by decide)
    · rw [if_neg h2] at h
      by_cases h3 : ¬ validWorldsCreatedVal (jsGet v "worldsCreated")
      · rw [if_pos h3] at h
        exact absurd h (by decide)
      · rw [if_neg h3] at h
        dsimp only at h
        by_cases h4 : ¬ (jsTruthy (jsGet v "resources") ∧
            jsIsObjectType (jsGet v "resources"))
        · rw [if_pos h4] at h
          exact absurd h (by decide)
        · rw [if_neg h4] at h
          by_cases h5 : ¬ (coreResourceNames.all (fun r =>
              match jsGet (jsGet v "resources") r with
              | .undefV => true
              | w => validNumberVal w) = true)
          · rw [if_pos h5] at h
            exact absurd h (by decide)
          · rw [if_neg h5] at h
            by_cases h6 : ¬ (jsTruthy (jsGet v "upgrades") ∧
                jsIsObjectType (jsGet v "upgrades"))
            · rw [if_pos h6] at h
              exact absurd h (by decide)
            · rw [if_neg h6] at h
              by_cases h7 : ¬ ((jsEntries (jsGet v "upgrades")).all (fun kv =>
                  if jsTruthy kv.2 ∧ jsIsObjectType kv.2 then
                    (match jsGet kv.2 "level" with
                     | .undefV => true
                     | w => validNumberVal w)
                  else true) = true)
              · rw [if_pos h7] at h
                exact absurd h (by decide)
              · refine ⟨not_not.mp h1, not_not.mp h2, not_not.mp h3,
                  not_not.mp h4, ?_, ?_⟩
                · intro r hr
                  exact List.all_eq_true.mp (not_not.mp h5) r hr
                · intro kv hkv
                  exact List.all_eq_true.mp (not_not.mp h7) kv hkv

/-- A successful restoreFromBackup installs some backup value that itself
validates. -/
theorem restoreFromBackup_true (st : Storage)
    (h : (restoreFromBackup st).1 = true) :
    ∃ w, (restoreFromBackup st).2 = { st with save := some (.ok w) } ∧
      validateSaveData w = true := by
  unfold restoreFromBackup at h ⊢
  cases hnb : newestBackup st.backups with
  | none =>
      rw [hnb] at h
      exact Bool.noConfusion (show false = true from h)
  | some tb =>
      obtain ⟨t, b⟩ := tb
      rw [hnb] at h
      cases b with
      | malformed => exact Bool.noConfusion (show false = true from h)
      | ok w =>
          by_cases hv : validateSaveData w = true
          · refine ⟨w, ?_, hv⟩
            show (if validateSaveData w = true
                then ((true, { st with save := some (Blob.ok w) }) :
                  Bool × Storage)
                else (false, st)).2 = { st with save := some (Blob.ok w) }
            rw [if_pos hv]
          · exfalso
            have h2 : (if validateSaveData w = true
                then ((true, { st with save := some (Blob.ok w) }) :
                  Bool × Storage)
                else (false, st)).1 = true := h
            rw [if_neg hv] at h2
            exact Bool.noConfusion (show false = true from h2)

/-- A failed restoreFromBackup leaves storage unchanged. -/
theorem restoreFromBackup_false (st : Storage)
    (h : (restoreFromBackup st).1 = false) :
    (restoreFromBackup st).2 = st := by
  unfold restoreFromBackup at h ⊢
  cases hnb : newestBackup st.backups with
  | none => rfl
  | some tb =>
      obtain ⟨t, b⟩ := tb
      rw [hnb] at h
      cases b with
      | malformed => rfl
      | ok w =>
          by_cases hv : validateSaveData w = true
          · exfalso
            have h2 : (if validateSaveData w = true
                then ((true, { st with save := some (Blob.ok w) }) :
                  Bool × Storage)
                else (false, st)).1 = false := h
            rw [if_pos hv] at h2
            exact Bool.noConfusion (show true = false from h2)
          · show (if validateSaveData w = true
                then ((true, { st with save := some (Blob.ok w) }) :
                  Bool × Storage)
                else (false, st)).2 = st
            rw [if_neg hv]

/-- One unfolding of loadGameFuel on a parsed save. -/
theorem loadGameFuel_succ_ok (clock : ℚ) (fuel : Nat) (v : JSVal)
    (bks : List (ℚ × Blob)) :
    loadGameFuel clock (fuel + 1) { save := some (.ok v), backups := bks } =
      (if validateSaveData v
       then (true, createBackup clock { save := some (.ok v), backups := bks })
       else
         (let r := restoreFromBackup { save := some (.ok v), backups := bks }
          if r.1 then loadGameFuel clock fuel r.2 else (false, r.2))) := rfl

/-- One unfolding of loadGameFuel on an unparseable save. -/
theorem loadGameFuel_succ_malformed (clock : ℚ) (fuel : Nat)
    (bks : List (ℚ × Blob)) :
    loadGameFuel clock (fuel + 1) { save := some .malformed, backups := bks } =
      (let r := restoreFromBackup { save := some .malformed, backups := bks }
       if r.1 then loadGameFuel clock fuel r.2 else (false, r.2)) := rfl

/-- One unfolding of loadGameFuel with no stored save. -/
theorem loadGameFuel_succ_none (clock : ℚ) (fuel : Nat)
    (bks : List (ℚ × Blob)) :
    loadGameFuel clock (fuel + 1) { save := none, backups := bks } =
      (false, { save := none, backups := bks }) := rfl

/-- With fuel 1 left, a save that validates loads successfully. -/
theorem loadGameFuel_one_valid (clock : ℚ) (st : Storage) (w : JSVal)
    (hs : st.save = some (.ok w)) (hv : validateSaveData w = true) :
    loadGameFuel clock 1 st = (true, createBackup clock st) := by
  obtain ⟨sv, bks⟩ := st
  dsimp only at hs
  subst hs
  have he : loadGameFuel clock 1 { save := some (.ok w), backups := bks }
      = _ := loadGameFuel_succ_ok clock 0 w bks
  rw [he, if_pos hv]

/-- C3 (amended): validateSaveData rejects every non-object, every blob
missing worldsCreated/resources/upgrades, every negative (or non-number)
worldsCreated, and every present core-resource or upgrade-level value that
is negative or non-finite; and loadGame never throws: a validating save
loads (after a backup of the current save), a failing one triggers a
restore attempt from the *newest* backup followed by one retry that
succeeds exactly when that newest backup validates, and on a failed
restore the call returns false with storage unchanged.  (Unlike the
resource and level checks, the worldsCreated check has no isFinite
conjunct — Infinity passes it, see the counterexample.) -/
theorem c3_validate_load :
    (∀ v : JSVal, ¬ (jsTruthy v ∧ jsIsObjectType v) →
      validateSaveData v = false) ∧
    (∀ v : JSVal, ¬ (jsHasProp v "worldsCreated" ∧ jsHasProp v "resources" ∧
        jsHasProp v "upgrades") → validateSaveData v = false) ∧
    (∀ v : JSVal, validWorldsCreatedVal (jsGet v "worldsCreated") = false →
      validateSaveData v = false) ∧
    (∀ (v w : JSVal) (r : String), r ∈ coreResourceNames →
      jsGet (jsGet v "resources") r = w → w ≠ .undefV →
      validNumberVal w = false → validateSaveData v = false) ∧
    (∀ (v w : JSVal) (kv : String × JSVal),
      kv ∈ jsEntries (jsGet v "upgrades") →
      (jsTruthy kv.2 ∧ jsIsObjectType kv.2) → jsGet kv.2 "level" = w →
      w ≠ .undefV → validNumberVal w = false → validateSaveData v = false) ∧
    (∀ (clock : ℚ) (st : Storage) (v : JSVal), st.save = some (.ok v) →
      validateSaveData v = true →
      loadGameFuel clock 2 st = (true, createBackup clock st)) ∧
    (∀ (clock : ℚ) (st : Storage) (v : JSVal), st.save = some (.ok v) →
      validateSaveData v = false →
      ((restoreFromBackup st).1 = true →
        ∃ w, validateSaveData w = true ∧
          (restoreFromBackup st).2 = { st with save := some (.ok w) } ∧
          loadGameFuel clock 2 st =
            (true, createBackup clock (restoreFromBackup st).2)) ∧
      ((restoreFromBackup st).1 = false →
        loadGameFuel clock 2 st = (false, st))) ∧
    (∀ (clock : ℚ) (st : Storage), st.save = some .malformed →
      ((restoreFromBackup st).1 = true →
        ∃ w, validateSaveData w = true ∧
          (restoreFromBackup st).2 = { st with save := some (.ok w) } ∧
          loadGameFuel clock 2 st =
            (true, createBackup clock (restoreFromBackup st).2)) ∧
      ((restoreFromBackup st).1 = false →
        loadGameFuel clock 2 st = (false, st))) ∧
    (∀ (clock : ℚ) (st : Storage), st.save = none →
      loadGameFuel clock 2 st = (false, st)) := by
  refine ⟨?_, ?_, ?_, ?_, ?_, ?_, ?_, ?_, ?_⟩
  · intro v h
    cases hb : validateSaveData v with
    | false => rfl
    | true => exact absurd (validateSaveData_spec v hb).1 h
  · intro v h
    cases hb : validateSaveData v with
    | false => rfl
    | true => exact absurd (validateSaveData_spec v hb).2.1 h
  · intro v h
    cases hb : validateSaveData v with
    | false => rfl
    | true =>
        exact absurd (validateSaveData_spec v hb).2.2.1 (by simp [h])
  · intro v w r hr hw hne hval
    cases hb : validateSaveData v with
    | false => rfl
    | true =>
        have hall := (validateSaveData_spec v hb).2.2.2.2.1 r hr
        rw [hw] at hall
        cases w with
        | undefV => exact absurd rfl hne
        | null => exact absurd (hval.symm.trans hall) (by decide)
        | bool b => exact absurd (hval.symm.trans hall) (by decide)
        | num n => exact absurd (hval.symm.trans hall) (by decide)
        | str s => exact absurd (hval.symm.trans hall) (by decide)
        | arr es => exact absurd (hval.symm.trans hall) (by decide)
        | obj fs => exact absurd (hval.symm.trans hall) (by decide)
  · intro v w kv hkv htu hlev hne hval
    cases hb : validateSaveData v with
    | false => rfl
    | true =>
        have hq := (validateSaveData_spec v hb).2.2.2.2.2 kv hkv
        rw [if_pos htu, hlev] at hq
        cases w with
        | undefV => exact absurd rfl hne
        | null => exact absurd (hval.symm.trans hq) (by decide)
        | bool b => exact absurd (hval.symm.trans hq) (by decide)
        | num n => exact absurd (hval.symm.trans hq) (by decide)
        | str s => exact absurd (hval.symm.trans hq) (by decide)
        | arr es => exact absurd (hval.symm.trans hq) (by decide)
        | obj fs => exact absurd (hval.symm.trans hq) (by decide)
  · intro clock st v hs hv
    obtain ⟨sv, bks⟩ := st
    dsimp only at hs
    subst hs
    have he : loadGameFuel clock 2 { save := some (.ok v), backups := bks }
        = _ := loadGameFuel_succ_ok clock 1 v bks
    rw [he, if_pos hv]
  · intro clock st v hs hv
    obtain ⟨sv, bks⟩ := st
    dsimp only at hs
    subst hs
    have he : loadGameFuel clock 2 { save := some (.ok v), backups := bks }
        = _ := loadGameFuel_succ_ok clock 1 v bks
    constructor
    · intro hr
      obtain ⟨w, hw2, hwv⟩ := restoreFromBackup_true _ hr
      refine ⟨w, hwv, hw2, ?_⟩
      rw [he, if_neg (by simp [hv])]
      dsimp only
      rw [if_pos hr, hw2]
      exact loadGameFuel_one_valid clock _ w rfl hwv
    · intro hr
      rw [he, if_neg (by simp [hv])]
      dsimp only
      rw [if_neg (by simp [hr]), restoreFromBackup_false _ hr]
  · intro clock st hs
    obtain ⟨sv, bks⟩ := st
    dsimp only at hs
    subst hs
    have he : loadGameFuel clock 2 { save := some .malformed, backups := bks }
        = _ := loadGameFuel_succ_malformed clock 1 bks
    constructor
    · intro hr
      obtain ⟨w, hw2, hwv⟩ := restoreFromBackup_true _ hr
      refine ⟨w, hwv, hw2, ?_⟩
      rw [he]
      dsimp only
      rw [if_pos hr, hw2]
      exact loadGameFuel_one_valid clock _ w rfl hwv
    · intro hr
      rw [he]
      dsimp only
      rw [if_neg (by simp [hr]), restoreFromBackup_false _ hr]
  · intro clock st hs
    obtain ⟨sv, bks⟩ := st
    dsimp only at hs
    subst hs
    exact loadGameFuel_succ_none clock 1 bks

/-- A save blob whose worldsCreated is `Infinity`, with empty but
well-formed resources and upgrades objects. -/
def c3InfBlob : JSVal :=
  .obj [("worldsCreated", .num .inf), ("resources", .obj []),
    ("upgrades", .obj [])]

/-- A minimal save blob that validates. -/
def c3ValidBlob : JSVal :=
  .obj [("worldsCreated", .num (.mk 0)), ("resources", .obj []),
    ("upgrades", .obj [])]

/-- The Scenario-E corrupted blob: `resources.heat = -5`. -/
def c3BadBlob : JSVal :=
  .obj [("worldsCreated", .num (.mk 0)),
    ("resources", .obj [("heat", .num (.mk (-5)))]),
    ("upgrades", .obj [])]

/-- Storage whose main save is the corrupted blob, with an older valid
backup (timestamp 1) shadowed by a newer corrupted one (timestamp 2). -/
def c3Storage : Storage :=
  { save := some (.ok c3BadBlob),
    backups := [(1, .ok c3ValidBlob), (2, .ok c3BadBlob)] }

/-- C3 counterexample: validateSaveData accepts worldsCreated = Infinity
(the check lacks the isFinite conjunct the resource and level checks
have), and loadGame does not fall back to "the newest *valid* backup": in
c3Storage the corrupted save fails validation and restoreFromBackup
consults only the newest backup (also corrupted), so the load fails even
though an older backup that validates sits in the backup list. -/
theorem c3_validate_load_counterexample :
    validateSaveData c3InfBlob = true ∧
    validNumberVal (.num .inf) = false ∧
    validateSaveData c3BadBlob = false ∧
    (∃ p ∈ c3Storage.backups,
      (match p.2 with
       | .ok w => validateSaveData w
       | .malformed => false) = true) ∧
    (restoreFromBackup c3Storage).1 = false ∧
    (loadGameFuel 0 2 c3Storage).1 = false := by
  decide

/-! ## Claim C4 -/

/-- Setting an absent key appends it (JS insertion order). -/
theorem aset_notmem {α : Type} (m : List (String × α)) (k : String) (v : α)
    (h : k ∉ m.map Prod.fst) : aset m k v = m ++ [(k, v)] := by
  induction m with
  | nil => rfl
  | cons e rest ih =>
      obtain ⟨k0, v0⟩ := e
      simp only [List.map_cons, List.mem_cons] at h
      push_neg at h
      have hk : k0 ≠ k := fun he => h.1 he.symm
      show (if k0 = k then (k, v) :: rest else (k0, v0) :: aset rest k v)
        = (k0, v0) :: rest ++ [(k, v)]
      rw [if_neg hk, ih h.2]
      rfl

/-- Spreading a key-disjoint object over a base is concatenation. -/
theorem mergeSpread_disjoint {α : Type} (rest : List (String × α)) :
    ∀ base : List (String × α),
      (∀ kv ∈ rest, kv.1 ∉ base.map Prod.fst) →
      (rest.map Prod.fst).Nodup →
      mergeSpread base rest = base ++ rest := by
  induction rest with
  | nil =>
      intro base _ _
      simp [mergeSpread]
  | cons e t ih =>
      intro base hdis hnd
      obtain ⟨k, v⟩ := e
      simp only [List.map_cons, List.nodup_cons] at hnd
      have hstep : mergeSpread base ((k, v) :: t) =
          mergeSpread (aset base k v) t := rfl
      rw [hstep, aset_notmem base k v (hdis (k, v) (List.mem_cons_self _ _))]
      rw [ih (base ++ [(k, v)]) ?hdis2 hnd.2]
      · rw [List.append_assoc]
        rfl
      case hdis2 =>
        intro kv hkv
        have h1 := hdis kv (List.mem_cons_of_mem _ hkv)
        have hk2 : kv.1 ≠ k := by
          intro he
          exact hnd.1 (he ▸ List.mem_map_of_mem Prod.fst hkv)
        rw [List.map_append]
        intro hmem
        rcases List.mem_append.mp hmem with hm | hm
        · exact h1 hm
        · simp at hm
          exact hk2 hm

/-- The upgrade-defaults pass is the identity when every default key is
already present with a record the per-field spread leaves unchanged (no
absent optional field that the default would fill). -/
theorem foldFix_id (ds : List (String × Upgrade)) :
    ∀ ups : List (String × Upgrade),
      (∀ kd ∈ ds, ∃ u, alookup ups kd.1 = some u ∧
        spreadUpgrade kd.2 u = u) →
      ds.foldl
        (fun acc kd =>
          match alookup acc kd.1 with
          | none => aset acc kd.1 kd.2
          | some u => aset acc kd.1 (spreadUpgrade kd.2 u))
        ups = ups := by
  induction ds with
  | nil =>
      intro ups _
      rfl
  | cons kd rest ih =>
      intro ups h
      obtain ⟨u, hu, hsp⟩ := h kd (List.mem_cons_self kd rest)
      have hstep : (match alookup ups kd.1 with
          | none => aset ups kd.1 kd.2
          | some u' => aset ups kd.1 (spreadUpgrade kd.2 u')) = ups := by
        rw [hu]
        show aset ups kd.1 (spreadUpgrade kd.2 u) = ups
        rw [hsp]
        exact aset_self_of_alookup ups kd.1 u hu
      simp only [List.foldl_cons]
      rw [hstep]
      exact ih ups (fun kd' hkd' => h kd' (List.mem_cons_of_mem _ hkd'))

/-- C4 (amended): for a state that passes save validation, whose resource
and upgrade objects have pairwise-distinct keys, whose resources begin
with the five constructor keys in constructor order, whose upgrades
contain every default upgrade key with no absent optional field that the
default would fill in, and whose world history is not an empty list
alongside a positive worldsCreated, saving and immediately loading
restores the state exactly.  (Without the world-history proviso the round
trip fails — validateAndFixState fabricates a placeholder history — and
without the upgrade-field proviso it fails too — the per-upgrade spread
fills absent unlocked/requires fields from the defaults; see the
counterexample for both.) -/
theorem c4_roundtrip (clock : ℚ) (s : GState)
    (hvalid : validStateForSave s = true)
    (hnodr : (s.resources.map Prod.fst).Nodup)
    (hnodu : (s.upgrades.map Prod.fst).Nodup)
    (hhist : ¬ (s.worldHistory.isEmpty = true ∧ 0 < s.worldsCreated))
    (hups : ∀ kd ∈ defaultUpgrades, (alookup s.upgrades kd.1).isSome = true ∧
      (alookup s.upgrades kd.1).map (spreadUpgrade kd.2) =
        alookup s.upgrades kd.1)
    (horder : ∃ v1 v2 v3 v4 v5 rest, s.resources =
        ("heat", v1) :: ("fuel", v2) :: ("pressure", v3) :: ("energy", v4) ::
        ("stability", v5) :: rest) :
    loadAfterSave clock s = s := by
  obtain ⟨v1, v2, v3, v4, v5, rest, hresources⟩ := horder
  have hn2 : ((["heat", "fuel", "pressure", "energy", "stability"] :
      List String) ++ rest.map Prod.fst).Nodup := by
    rw [hresources] at hnodr
    exact hnodr
  have hdisj0 := (List.nodup_append.mp hn2).2.2
  have hrestnd : (rest.map Prod.fst).Nodup := (List.nodup_append.mp hn2).2.1
  have hmerge : mergeLoad s s = s := by
    unfold mergeLoad
    rw [mergeSpread_self _ hnodu, mergeSpread_self _ hnodr]
    cases hcw : s.currentWorld with
    | none =>
        show { s with
                 upgrades := s.upgrades,
                 resources := s.resources,
                 currentWorld := none,
                 worldHistory := s.worldHistory } = s
        rw [← hcw]
    | some w =>
        show { s with
                 upgrades := s.upgrades,
                 resources := s.resources,
                 currentWorld := some w,
                 worldHistory := s.worldHistory } = s
        rw [← hcw]
  have hups2 : ∀ kd ∈ defaultUpgrades, ∃ u,
      alookup s.upgrades kd.1 = some u ∧ spreadUpgrade kd.2 u = u := by
    intro kd hkd
    obtain ⟨hsome, hmap⟩ := hups kd hkd
    obtain ⟨u, hu⟩ := Option.isSome_iff_exists.mp hsome
    refine ⟨u, hu, ?_⟩
    rw [hu] at hmap
    exact Option.some_injective _ hmap
  have hfix : fixUpgrades s.upgrades = s.upgrades := by
    unfold fixUpgrades
    exact foldFix_id defaultUpgrades s.upgrades hups2
  have hres : mergeSpread defaultResourcesFive s.resources = s.resources := by
    rw [hresources]
    have h5 : mergeSpread defaultResourcesFive
        (("heat", v1) :: ("fuel", v2) :: ("pressure", v3) :: ("energy", v4) ::
          ("stability", v5) :: rest) =
        mergeSpread [("heat", v1), ("fuel", v2), ("pressure", v3),
          ("energy", v4), ("stability", v5)] rest := rfl
    have hdisj : ∀ kv ∈ rest, kv.1 ∉
        (([("heat", v1), ("fuel", v2), ("pressure", v3), ("energy", v4),
          ("stability", v5)] : List (String × ℚ)).map Prod.fst) := by
      intro kv hkv hmem
      exact hdisj0 hmem (List.mem_map_of_mem Prod.fst hkv)
    rw [h5, mergeSpread_disjoint rest _ hdisj hrestnd]
    rfl
  unfold loadAfterSave
  rw [hmerge]
  unfold validateAndFixState
  rw [if_neg hhist]
  dsimp only
  rw [hfix, hres]

theorem c4_roundtrip_witness : loadAfterSave 0 initState = initState :=
  c4_roundtrip 0 initState (by decide) (by decide) (by decide) (by decide)
    (by decide)
    ⟨0, 0, 0, 0, 0,
      [("water", 0), ("oxygen", 0), ("stone", 0), ("magma", 0), ("ice", 0),
       ("crystal", 0), ("voidEnergy", 0)], rfl⟩

/-- A validating state with one created world but an empty world
history. -/
def c4State : GState := { initState with worldsCreated := 1 }

/-- A validating state whose thermalAccelerator record lacks the optional
unlocked/requires fields. -/
def c4StateB : GState :=
  { initState with
      upgrades := aset defaultUpgrades "thermalAccelerator"
        { level := 0, maxLevel := 5, baseCost := 25, unlocked := none,
          requiresHeat := none, requiresPressure := none,
          requiresFuel := none, requiresEnergy := none,
          requiresStability := none } }

/-- C4 counterexample, two failure modes.  c4State passes save validation
and has an empty world history, but loading its own save fabricates a
one-entry placeholder world history.  c4StateB passes save validation,
but loading its own save runs the per-upgrade spread
`{...defaultUpgrade, ...existing}`, which fills thermalAccelerator's
absent `unlocked` field with the default `false` — in both cases
load(save(s)) differs from s. -/
theorem c4_roundtrip_counterexample :
    (validStateForSave c4State = true ∧
      c4State.worldHistory.length = 0 ∧
      (loadAfterSave 0 c4State).worldHistory.length = 1) ∧
    (validStateForSave c4StateB = true ∧
      (alookup c4StateB.upgrades "thermalAccelerator").map
        Upgrade.unlocked = some none ∧
      (alookup (loadAfterSave 0 c4StateB).upgrades
        "thermalAccelerator").map Upgrade.unlocked = some (some false)) := by
  decide

end MachineOfWorlds
